import Mathlib

/-!
Verification of the CalSync reconciliation core (skempken/CalSync).

This file gives a shallow embedding, in Lean 4, of the parts of the Python
source that the specification's claims are about:

* `src/calsync/models/placeholder.py` — the tracking codec (`PlaceholderInfo`,
  `to_notes_marker`, `from_notes`), including a faithful model of the parts of
  Python's `json` standard library it relies on (`json.dumps` / `json.loads`);
* `src/calsync/sync/tracker.py` — `EventTracker` (`compute_event_hash`,
  `is_placeholder`, `extract_tracking_info`, `create_placeholder_notes`),
  including a full model of SHA-256;
* `src/calsync/sync/differ.py` — `ChangeDiffer` (`_should_sync_event`,
  `compute_sync_actions`);
* `src/calsync/sync/engine.py` — the per-direction action application loop of
  `SyncEngine._sync_direction` and `SyncEngine._create_placeholder`.

Python strings are modelled as `List Char` (a Python `str` is a sequence of
Unicode code points).  Fallible Python code is modelled with `Except`: the
exceptions that can escape the embedded functions are collected in `PyErr`.
Machine integers do not occur; all arithmetic is on `Nat` with explicit
`% 2 ^ 32` where the SHA-256 rounds overflow.
-/

/-- Convert a Lean string literal to the `List Char` representation used for
Python strings throughout this file. -/
def cs : String → List Char :=
  String.data

/-! ## A model of Python's `json` module (the subset CalSync relies on)

`placeholder.py` serializes a `dict` of strings with `json.dumps` and parses
arbitrary annotation substrings with `json.loads`.  We model JSON values with
numbers kept as their source lexeme (CalSync never computes with a JSON
number, so the lexeme is all that is ever observed). -/

/-- A decoded JSON value, as produced by a model of `json.loads`.  Python maps
JSON `null` to `None`, `true` and `false` to `bool`, strings to `str`, arrays
to `list` and objects to `dict` (insertion-ordered, duplicate keys collapsed
by overwriting).  Numbers are kept as their lexeme. -/
inductive Json where
  | null : Json
  | bool (b : Bool) : Json
  | num (lexeme : List Char) : Json
  | str (s : List Char) : Json
  | arr (elems : List Json) : Json
  | obj (members : List (List Char × Json)) : Json

/- Structural (Python `==`) equality on decoded JSON values.  Boundary of the
model: Python compares `1` and `1.0` equal while distinct lexemes here differ;
CalSync never compares two numeric values. -/
mutual

def Json.beq : Json → Json → Bool
  | Json.null, Json.null => true
  | Json.bool a, Json.bool b => a == b
  | Json.num a, Json.num b => a == b
  | Json.str a, Json.str b => a == b
  | Json.arr a, Json.arr b => Json.beqList a b
  | Json.obj a, Json.obj b => Json.beqMembers a b
  | _, _ => false

def Json.beqList : List Json → List Json → Bool
  | [], [] => true
  | a :: as, b :: bs => Json.beq a b && Json.beqList as bs
  | _, _ => false

def Json.beqMembers : List (List Char × Json) → List (List Char × Json) → Bool
  | [], [] => true
  | (ka, va) :: as, (kb, vb) :: bs => ka == kb && Json.beq va vb && Json.beqMembers as bs
  | _, _ => false

end

instance : BEq Json := ⟨Json.beq⟩

/-- Python truthiness (`if value:`) of a decoded JSON value: `None`, `False`,
`""`, `0`, `[]` and `{}` are falsy.  A numeric lexeme is falsy iff it denotes
zero: sign and exponent are irrelevant and the mantissa is all zero digits
(`NaN` and `Infinity` are truthy). -/
def Json.truthy : Json → Bool
  | Json.null => false
  | Json.bool b => b
  | Json.str s => !s.isEmpty
  | Json.arr xs => !xs.isEmpty
  | Json.obj ms => !ms.isEmpty
  | Json.num lx =>
    let noSign := if lx.head? == some ('-') then lx.tail else lx
    let mantissa := noSign.takeWhile (fun c => c != 'e' && c != 'E')
    !(mantissa.all (fun c => c == '0' || c == '.') && !mantissa.isEmpty)

/-- The digit characters `0`–`9a`–`f` used by both the JSON codec model and the
hex digests; `Nat.digitChar`-style but restricted to one hex digit. -/
def hexDigitChar (n : Nat) : Char :=
  if n = 0 then '0' else if n = 1 then '1' else if n = 2 then '2'
  else if n = 3 then '3' else if n = 4 then '4' else if n = 5 then '5'
  else if n = 6 then '6' else if n = 7 then '7' else if n = 8 then '8'
  else if n = 9 then '9' else if n = 10 then 'a' else if n = 11 then 'b'
  else if n = 12 then 'c' else if n = 13 then 'd' else if n = 14 then 'e'
  else 'f'

/-- How `json.dumps` renders one character of a string: `"` and `\` get a
backslash escape, the control characters below `U+0020` get their short escape
or `\u00XX`, and every other character is emitted as itself.  (Boundary of the
model: `ensure_ascii=True` additionally `\uXXXX`-escapes characters above
`U+007F`; `json.loads` undoes exactly that escaping, so eliding it changes no
observable behaviour of the codec modelled here.) -/
def escChar (c : Char) : List Char :=
  if c = '"' then ['\\', '"']
  else if c = '\\' then ['\\', '\\']
  else if c = Char.ofNat 8 then ['\\', 'b']
  else if c = Char.ofNat 9 then ['\\', 't']
  else if c = Char.ofNat 10 then ['\\', 'n']
  else if c = Char.ofNat 12 then ['\\', 'f']
  else if c = Char.ofNat 13 then ['\\', 'r']
  else if c.toNat < 32 then
    ['\\', 'u', '0', '0', hexDigitChar (c.toNat / 16), hexDigitChar (c.toNat % 16)]
  else [c]

/-- `json.dumps` rendering of a string (the part between the quotes). -/
def escString (s : List Char) : List Char :=
  s.flatMap escChar

/- Model of `json.dumps(value)` with the default separators `", "` and
`": "`; see `escChar` for the string escaping modelled. -/
mutual

def jsonDumps : Json → List Char
  | Json.null => cs ("null")
  | Json.bool true => cs ("true")
  | Json.bool false => cs ("false")
  | Json.num lx => lx
  | Json.str s => '"' :: escString s ++ ['"']
  | Json.arr xs => '[' :: jsonDumpsList xs ++ [']']
  | Json.obj ms => '{' :: jsonDumpsMembers ms ++ ['}']

def jsonDumpsList : List Json → List Char
  | [] => []
  | [x] => jsonDumps x
  | x :: y :: xs => jsonDumps x ++ ',' :: ' ' :: jsonDumpsList (y :: xs)

def jsonDumpsMembers : List (List Char × Json) → List Char
  | [] => []
  | [(k, v)] => '"' :: escString k ++ '"' :: ':' :: ' ' :: jsonDumps v
  | (k, v) :: m :: ms =>
    '"' :: escString k ++ '"' :: ':' :: ' ' :: jsonDumps v ++ ',' :: ' ' :: jsonDumpsMembers (m :: ms)

end

/-- One hexadecimal digit, as accepted in a `\uXXXX` escape. -/
def hexVal (c : Char) : Option Nat :=
  let n := c.toNat
  if 48 ≤ n ∧ n ≤ 57 then some (n - 48)
  else if 97 ≤ n ∧ n ≤ 102 then some (n - 87)
  else if 65 ≤ n ∧ n ≤ 70 then some (n - 55)
  else none

/-- Four hexadecimal digits, as in a `\uXXXX` escape. -/
def hex4 (a b c d : Char) : Option Nat :=
  match hexVal a, hexVal b, hexVal c, hexVal d with
  | some va, some vb, some vc, some vd => some (4096 * va + 256 * vb + 16 * vc + vd)
  | _, _, _, _ => none

/-- Prepend a decoded character to the result of parsing the rest of a JSON
string literal. -/
def consStr (c : Char) : Option (List Char × List Char) → Option (List Char × List Char) :=
  Option.map (fun p => (c :: p.1, p.2))

/-- Parse the body of a JSON string literal (the opening quote already
consumed), returning the decoded characters and the input after the closing
quote.  Escapes are decoded as `json.loads` does.  Boundary of the model:
Python's decoder admits lone `\uXXXX` surrogate escapes (producing a `str` a
Lean `Char` cannot represent) and recombines surrogate escape pairs, which
only `ensure_ascii` output of non-BMP text contains; with the `ensure_ascii`
transport elided from `escChar`, both surrogate forms are rejected here, and
no CalSync behaviour under consideration depends on them. -/
def parseStr : List Char → Option (List Char × List Char)
  | [] => none
  | c :: rest =>
    if c = '"' then some ([], rest)
    else if c = '\\' then
      match rest with
      | [] => none
      | e :: rest2 =>
        if e = '"' then consStr '"' (parseStr rest2)
        else if e = '\\' then consStr '\\' (parseStr rest2)
        else if e = '/' then consStr '/' (parseStr rest2)
        else if e = 'b' then consStr (Char.ofNat 8) (parseStr rest2)
        else if e = 't' then consStr (Char.ofNat 9) (parseStr rest2)
        else if e = 'n' then consStr (Char.ofNat 10) (parseStr rest2)
        else if e = 'f' then consStr (Char.ofNat 12) (parseStr rest2)
        else if e = 'r' then consStr (Char.ofNat 13) (parseStr rest2)
        else if e = 'u' then
          match rest2 with
          | a :: b :: c2 :: d :: rest3 =>
            match hex4 a b c2 d with
            | none => none
            | some n =>
              if n < 55296 ∨ 57344 ≤ n then consStr (Char.ofNat n) (parseStr rest3)
              else none
          | _ => none
        else none
    else if c.toNat < 32 then none
    else consStr c (parseStr rest)

/-- Skip JSON whitespace (space, tab, newline, carriage return). -/
def skipWs : List Char → List Char
  | [] => []
  | c :: rest =>
    if c = ' ' ∨ c = Char.ofNat 9 ∨ c = Char.ofNat 10 ∨ c = Char.ofNat 13 then skipWs rest
    else c :: rest

/-- Longest leading run of decimal digits of the input, and the rest. -/
def takeDigits (s : List Char) : List Char × List Char :=
  (s.takeWhile Char.isDigit, s.dropWhile Char.isDigit)

/-- Parse the optional exponent of a JSON number token. -/
def parseNumExp (lexeme : List Char) (s : List Char) : Option (Json × List Char) :=
  match s with
  | e :: r =>
    if e = 'e' ∨ e = 'E' then
      let (esign, r2) := match r with
        | '+' :: rr => (['+'], rr)
        | '-' :: rr => (['-'], rr)
        | _ => (([] : List Char), r)
      match takeDigits r2 with
      | ([], _) => none
      | (es, r3) => some (Json.num (lexeme ++ e :: esign ++ es), r3)
    else some (Json.num lexeme, s)
  | [] => some (Json.num lexeme, s)

/-- Parse a JSON number token, returning its lexeme and the rest of the
input: optional minus sign, an integer part without superfluous leading zero,
an optional fraction and an optional exponent. -/
def parseNum (s : List Char) : Option (Json × List Char) :=
  let (sign, s1) := match s with
    | '-' :: r => (['-'], r)
    | _ => (([] : List Char), s)
  match takeDigits s1 with
  | ([], _) => none
  | (ds, r1) =>
    if 1 < ds.length ∧ ds.head? = some '0' then none
    else
      let (frac, r2) := match r1 with
        | '.' :: r =>
          (match takeDigits r with
           | ([], _) => (none, r1)
           | (fs, rr) => (some ('.' :: fs), rr))
        | _ => ((none : Option (List Char)), r1)
      match r1 with
      | '.' :: _ =>
        match frac with
        | none => none
        | some fchars => parseNumExp (sign ++ ds ++ fchars) r2
      | _ => parseNumExp (sign ++ ds) r2

/-- Insert into a Python `dict` modelled as an insertion-ordered association
list: assigning to an existing key overwrites the value in place, a new key is
appended. -/
def dictInsert {K V : Type} [BEq K] : List (K × V) → K → V → List (K × V)
  | [], k, v => [(k, v)]
  | (k0, v0) :: rest, k, v =>
    if k0 == k then (k0, v) :: rest else (k0, v0) :: dictInsert rest k v

/-- Python `dict` lookup on the same representation. -/
def dictLookup {K V : Type} [BEq K] : List (K × V) → K → Option V
  | [], _ => none
  | (k0, v0) :: rest, k => if k0 == k then some v0 else dictLookup rest k

mutual

/-- Parse one JSON value, skipping leading whitespace.  The fuel argument
bounds the nesting recursion (mirroring Python's recursion limit); every call
made by the embedded CalSync code supplies at least the input length plus one,
which is never exhausted on the flat payloads CalSync reads and writes. -/
def parseValue : Nat → List Char → Option (Json × List Char)
  | 0, _ => none
  | fuel + 1, s =>
    match skipWs s with
    | [] => none
    | c :: rest =>
      if c = '{' then
        match skipWs rest with
        | '}' :: rest2 => some (Json.obj [], rest2)
        | s2 => parseMembers fuel s2 []
      else if c = '[' then
        match skipWs rest with
        | ']' :: rest2 => some (Json.arr [], rest2)
        | s2 => parseElems fuel s2 []
      else if c = '"' then (parseStr rest).map (fun p => (Json.str p.1, p.2))
      else if (cs ("null")).isPrefixOf (c :: rest) then some (Json.null, (c :: rest).drop 4)
      else if (cs ("true")).isPrefixOf (c :: rest) then some (Json.bool true, (c :: rest).drop 4)
      else if (cs ("false")).isPrefixOf (c :: rest) then some (Json.bool false, (c :: rest).drop 5)
      else if (cs ("NaN")).isPrefixOf (c :: rest) then some (Json.num (cs ("NaN")), (c :: rest).drop 3)
      else if (cs ("Infinity")).isPrefixOf (c :: rest) then
        some (Json.num (cs ("Infinity")), (c :: rest).drop 8)
      else if (cs ("-Infinity")).isPrefixOf (c :: rest) then
        some (Json.num (cs ("-Infinity")), (c :: rest).drop 9)
      else parseNum (c :: rest)

/-- Parse the members of a JSON object after `{` (first member's opening quote
expected next, whitespace already skipped), accumulating into a Python dict. -/
def parseMembers : Nat → List Char → List (List Char × Json) → Option (Json × List Char)
  | 0, _, _ => none
  | fuel + 1, s, acc =>
    match s with
    | '"' :: rest =>
      match parseStr rest with
      | none => none
      | some (k, r1) =>
        match skipWs r1 with
        | ':' :: r2 =>
          match parseValue fuel r2 with
          | none => none
          | some (v, r3) =>
            match skipWs r3 with
            | ',' :: r4 => parseMembers fuel (skipWs r4) (dictInsert acc k v)
            | '}' :: r4 => some (Json.obj (dictInsert acc k v), r4)
            | _ => none
        | _ => none
    | _ => none

/-- Parse the elements of a JSON array after `[` (first element expected
next). -/
def parseElems : Nat → List Char → List Json → Option (Json × List Char)
  | 0, _, _ => none
  | fuel + 1, s, acc =>
    match parseValue fuel s with
    | none => none
    | some (v, r1) =>
      match skipWs r1 with
      | ',' :: r2 => parseElems fuel r2 (acc ++ [v])
      | ']' :: r2 => some (Json.arr (acc ++ [v]), r2)
      | _ => none

end

/-- Model of `json.loads`: parse one value and require only whitespace after
it.  Every failure mode of the Python decoder (`json.JSONDecodeError`, a
`ValueError`) is collapsed into `Except.error ()` — the CalSync code under
study only ever distinguishes success from failure. -/
def jsonLoads (s : List Char) : Except Unit Json :=
  match parseValue (s.length + 1) s with
  | none => Except.error ()
  | some (v, rest) => if (skipWs rest).isEmpty then Except.ok v else Except.error ()

/-! ## `models/placeholder.py` — the tracking codec -/

/-- The exceptions that can escape the embedded CalSync functions.
`ValueError`, `KeyError` and `json.JSONDecodeError` are always caught inside
`from_notes` and therefore never surface. -/
inductive PyErr where
  | attributeError : PyErr
  | typeError : PyErr
deriving DecidableEq

/-- `TRACKING_PREFIX = "[CALSYNC:"` from `placeholder.py`.  (The Python
constant's name cannot be used comfortably here.) -/
def TRACKING_PREFIX_CHARS : List Char :=
  cs ("[CALSYNC:")

/-- `TRACKING_SUFFIX = "]"` from `placeholder.py`. -/
def TRACKING_SUFFIX_CHAR : Char :=
  ']'

/- Python `str(value)` / `repr(value)` of a json-decoded value, as used by the
f-string in `get_occurrence_key`.  `str` of a string is the string itself;
containers render through `repr`.  Model boundary: the lexeme of a number is
kept as parsed (Python would normalise, e.g. `2.5e1` to `25.0`), and nested
strings inside container reprs are single-quoted without inner escaping; no
claim under study observes either rendering. -/
mutual

def pyStr : Json → List Char
  | Json.str s => s
  | v => pyRepr v

def pyRepr : Json → List Char
  | Json.null => cs ("None")
  | Json.bool true => cs ("True")
  | Json.bool false => cs ("False")
  | Json.num lx => lx
  | Json.str s => Char.ofNat 39 :: s ++ [Char.ofNat 39]
  | Json.arr xs => '[' :: pyReprList xs ++ [']']
  | Json.obj ms => '{' :: pyReprMembers ms ++ ['}']

def pyReprList : List Json → List Char
  | [] => []
  | [x] => pyRepr x
  | x :: y :: xs => pyRepr x ++ ',' :: ' ' :: pyReprList (y :: xs)

def pyReprMembers : List (List Char × Json) → List Char
  | [] => []
  | [(k, v)] => pyRepr (Json.str k) ++ ':' :: ' ' :: pyRepr v
  | (k, v) :: m :: ms =>
    pyRepr (Json.str k) ++ ':' :: ' ' :: pyRepr v ++ ',' :: ' ' :: pyReprMembers (m :: ms)

end

/-- The dataclass `PlaceholderInfo` of `placeholder.py`.  The Python fields
are annotated `str`, but annotations are not enforced: `from_notes` stores
whatever values the JSON payload carried, so the fields are modelled as
decoded JSON values.  A record built by CalSync itself always carries
`Json.str` fields.  `source_start = Json.null` models the Python default
`None` (`json.loads` maps JSON `null` to `None`, so an explicit `null` and an
absent key coincide, exactly as in Python). -/
structure PlaceholderInfo where
  tracking_id : Json
  source_event_id : Json
  source_calendar_id : Json
  source_hash : Json
  source_start : Json := Json.null

/-- `PlaceholderInfo.get_occurrence_key`:
`f"{self.source_event_id}_{self.source_start}"` when `source_start` is truthy,
otherwise `source_event_id` itself (which is returned unconverted, hence the
`Json` result type). -/
def PlaceholderInfo.get_occurrence_key (p : PlaceholderInfo) : Json :=
  if p.source_start.truthy then
    Json.str (pyStr p.source_event_id ++ '_' :: pyStr p.source_start)
  else p.source_event_id

/-- `PlaceholderInfo.to_notes_marker`: build the `data` dict (insertion order
`tid`, `src`, `scal`, `hash`), add `sstart` only when `source_start` is
truthy, and wrap `json.dumps(data)` in the prefix and suffix. -/
def PlaceholderInfo.to_notes_marker (p : PlaceholderInfo) : List Char :=
  let data := [(cs ("tid"), p.tracking_id), (cs ("src"), p.source_event_id),
               (cs ("scal"), p.source_calendar_id), (cs ("hash"), p.source_hash)]
  let data := if p.source_start.truthy then data ++ [(cs ("sstart"), p.source_start)] else data
  TRACKING_PREFIX_CHARS ++ jsonDumps (Json.obj data) ++ [TRACKING_SUFFIX_CHAR]

/-- First index at which `pat` occurs as a contiguous substring (Python
`str.index` / the `in` operator); `none` models the raised `ValueError` /
a false `in` test. -/
def indexOfSub (pat : List Char) : List Char → Option Nat
  | [] => if pat.isEmpty then some 0 else none
  | c :: t => if pat.isPrefixOf (c :: t) then some 0 else (indexOfSub pat t).map (· + 1)

/-- Python's `pat in s` substring test. -/
def containsSub (pat s : List Char) : Bool :=
  (indexOfSub pat s).isSome

/-- Python's `s.index(ch, start)`: first absolute index `≥ start` holding the
character `ch`. -/
def indexOfCharFrom (ch : Char) (s : List Char) (start : Nat) : Option Nat :=
  (indexOfSub [ch] (s.drop start)).map (· + start)

/-- `PlaceholderInfo.from_notes` (placeholder.py lines 45–62).  Mapping of the
Python control flow:
* `if not notes or TRACKING_PREFIX not in notes: return None` — the `none`
  input and the prefix-not-found branch (an empty string also lands there);
* `start = notes.index(TRACKING_PREFIX) + len(TRACKING_PREFIX)`;
* `end = notes.index(TRACKING_SUFFIX, start)` — a missing suffix raises
  `ValueError`, caught by the `except` clause, giving `None`;
* `data = json.loads(notes[start:end])` — a parse failure raises
  `json.JSONDecodeError`, caught, giving `None`;
* `data["tid"]` etc. — on a dict, a missing key raises `KeyError`, caught,
  giving `None`; on a decoded value that is not a dict (`None`, a number, a
  string, a bool or a list), subscripting with a string raises `TypeError`,
  which the `except (ValueError, json.JSONDecodeError, KeyError)` clause does
  not catch, so it propagates;
* `data.get("sstart")` — absent key gives Python `None` (= `Json.null`). -/
def PlaceholderInfo.from_notes : Option (List Char) → Except PyErr (Option PlaceholderInfo)
  | none => Except.ok none
  | some s =>
    match indexOfSub TRACKING_PREFIX_CHARS s with
    | none => Except.ok none
    | some i =>
      let start := i + TRACKING_PREFIX_CHARS.length
      match indexOfCharFrom TRACKING_SUFFIX_CHAR s start with
      | none => Except.ok none
      | some e =>
        match jsonLoads ((s.drop start).take (e - start)) with
        | Except.error _ => Except.ok none
        | Except.ok (Json.obj data) =>
          match dictLookup data (cs ("tid")), dictLookup data (cs ("src")),
                dictLookup data (cs ("scal")), dictLookup data (cs ("hash")) with
          | some tid, some src, some scal, some hash =>
            Except.ok (some
              { tracking_id := tid, source_event_id := src, source_calendar_id := scal,
                source_hash := hash,
                source_start := (dictLookup data (cs ("sstart"))).getD Json.null })
          | _, _, _, _ => Except.ok none
        | Except.ok _ => Except.error PyErr.typeError

/-! ## `models/event.py` and the parts of Python's `datetime`/`hashlib` that
`tracker.py` uses -/

/-- A naive `datetime.datetime` value (CalSync never manipulates time zones in
the code under study). -/
structure DateTime where
  year : Nat
  month : Nat
  day : Nat
  hour : Nat := 0
  minute : Nat := 0
  second : Nat := 0
  microsecond : Nat := 0
deriving DecidableEq

/-- Decimal rendering of `n`, zero-padded on the left to `width` digits. -/
def padNum (width n : Nat) : List Char :=
  let ds := Nat.toDigits 10 n
  List.replicate (width - ds.length) '0' ++ ds

/-- `datetime.isoformat()`: `YYYY-MM-DDTHH:MM:SS`, with `.ffffff` appended
only when the microsecond field is nonzero. -/
def DateTime.isoformat (d : DateTime) : List Char :=
  padNum 4 d.year ++ '-' :: padNum 2 d.month ++ '-' :: padNum 2 d.day ++
  'T' :: padNum 2 d.hour ++ ':' :: padNum 2 d.minute ++ ':' :: padNum 2 d.second ++
  (if d.microsecond = 0 then [] else '.' :: padNum 6 d.microsecond)

/-- The dataclass `CalendarEvent` of `models/event.py`.  The comments in the
source give the EventKit encodings: availability `0`=Busy, `1`=Free,
`2`=Tentative, `3`=Unavailable; self participant status `1`=Pending,
`2`=Accepted, `3`=Declined, `4`=Tentative. -/
structure CalendarEvent where
  id : List Char
  calendar_id : List Char
  title : List Char
  start_date : DateTime
  end_date : DateTime
  is_all_day : Bool
  notes : Option (List Char) := none
  location : Option (List Char) := none
  availability : Option Int := none
  self_participant_status : Option Int := none

/-! ### SHA-256 (`hashlib.sha256`), on bytes of the UTF-8 encoded payload -/

/-- Two to the thirty-second power; all SHA-256 word arithmetic is reduced by
this modulus. -/
def M32 : Nat :=
  4294967296

/-- UTF-8 encoding of one character (`str.encode()`). -/
def utf8Bytes (c : Char) : List Nat :=
  let n := c.toNat
  if n < 128 then [n]
  else if n < 2048 then [192 + n / 64, 128 + n % 64]
  else if n < 65536 then [224 + n / 4096, 128 + (n / 64) % 64, 128 + n % 64]
  else [240 + n / 262144, 128 + (n / 4096) % 64, 128 + (n / 64) % 64, 128 + n % 64]

/-- UTF-8 encoding of a string. -/
def utf8Encode (s : List Char) : List Nat :=
  s.flatMap utf8Bytes

/-- Right rotation of a 32-bit word. -/
def rotr32 (n x : Nat) : Nat :=
  ((x >>> n) ||| (x <<< (32 - n))) % M32

/-- SHA-256 big sigma-0. -/
def bigSigma0 (x : Nat) : Nat :=
  rotr32 2 x ^^^ rotr32 13 x ^^^ rotr32 22 x

/-- SHA-256 big sigma-1. -/
def bigSigma1 (x : Nat) : Nat :=
  rotr32 6 x ^^^ rotr32 11 x ^^^ rotr32 25 x

/-- SHA-256 small sigma-0. -/
def smallSigma0 (x : Nat) : Nat :=
  rotr32 7 x ^^^ rotr32 18 x ^^^ (x >>> 3)

/-- SHA-256 small sigma-1. -/
def smallSigma1 (x : Nat) : Nat :=
  rotr32 17 x ^^^ rotr32 19 x ^^^ (x >>> 10)

/-- SHA-256 choice function (`(e and f) xor ((not e) and g)` on 32 bits). -/
def chF (x y z : Nat) : Nat :=
  (x &&& y) ^^^ ((x ^^^ 4294967295) &&& z)

/-- SHA-256 majority function. -/
def majF (x y z : Nat) : Nat :=
  (x &&& y) ^^^ (x &&& z) ^^^ (y &&& z)

/-- The 64 SHA-256 round constants (FIPS 180-4, written in decimal:
the fractional parts of the cube roots of the first 64 primes). -/
def sha256K : List Nat :=
  [1116352408, 1899447441, 3049323471, 3921009573,
   961987163, 1508970993, 2453635748, 2870763221,
   3624381080, 310598401, 607225278, 1426881987,
   1925078388, 2162078206, 2614888103, 3248222580,
   3835390401, 4022224774, 264347078, 604807628,
   770255983, 1249150122, 1555081692, 1996064986,
   2554220882, 2821834349, 2952996808, 3210313671,
   3336571891, 3584528711, 113926993, 338241895,
   666307205, 773529912, 1294757372, 1396182291,
   1695183700, 1986661051, 2177026350, 2456956037,
   2730485921, 2820302411, 3259730800, 3345764771,
   3516065817, 3600352804, 4094571909, 275423344,
   430227734, 506948616, 659060556, 883997877,
   958139571, 1322822218, 1537002063, 1747873779,
   1955562222, 2024104815, 2227730452, 2361852424,
   2428436474, 2756734187, 3204031479, 3329325298]

/-- The eight working words of the SHA-256 state. -/
structure Sha256State where
  a : Nat
  b : Nat
  c : Nat
  d : Nat
  e : Nat
  f : Nat
  g : Nat
  h : Nat

/-- The SHA-256 initial state (FIPS 180-4, in decimal: the fractional
parts of the square roots of the first 8 primes). -/
def sha256Init : Sha256State :=
  ⟨1779033703, 3144134277, 1013904242, 2773480762,
   1359893119, 2600822924, 528734635, 1541459225⟩

/-- Big-endian eight-byte rendering of the message bit length. -/
def be64 (n : Nat) : List Nat :=
  [n / 72057594037927936 % 256, n / 281474976710656 % 256, n / 1099511627776 % 256,
   n / 4294967296 % 256, n / 16777216 % 256, n / 65536 % 256, n / 256 % 256, n % 256]

/-- SHA-256 message padding: a `0x80` byte, zeros to 56 mod 64, then the bit
length. -/
def sha256Pad (msg : List Nat) : List Nat :=
  let L := msg.length
  msg ++ 128 :: List.replicate ((64 + 56 - (L + 1) % 64) % 64) 0 ++ be64 (8 * L)

/-- Split the padded message into 64-byte chunks. -/
def toChunks : List Nat → List (List Nat)
  | [] => []
  | b :: rest => ((b :: rest).take 64) :: toChunks ((b :: rest).drop 64)
termination_by l => l.length
decreasing_by simp only [List.length_drop, List.length_cons]; omega

/-- Combine bytes into big-endian 32-bit words. -/
def toWords : List Nat → List Nat
  | a :: b :: c :: d :: rest => (a * 16777216 + b * 65536 + c * 256 + d) :: toWords rest
  | _ => []

/-- One step of the message-schedule extension, appending word `w.length`. -/
def scheduleStep (w : List Nat) : List Nat :=
  let i := w.length
  w ++ [(smallSigma1 (w.getD (i - 2) 0) + w.getD (i - 7) 0 +
         smallSigma0 (w.getD (i - 15) 0) + w.getD (i - 16) 0) % M32]

/-- Extend the sixteen message words by `k` scheduled words. -/
def buildSchedule (w : List Nat) : Nat → List Nat
  | 0 => w
  | k + 1 => buildSchedule (scheduleStep w) k

/-- One SHA-256 compression round. -/
def roundStep (kt wt : Nat) (s : Sha256State) : Sha256State :=
  let t1 := (s.h + bigSigma1 s.e + chF s.e s.f s.g + kt + wt) % M32
  let t2 := (bigSigma0 s.a + majF s.a s.b s.c) % M32
  ⟨(t1 + t2) % M32, s.a, s.b, s.c, (s.d + t1) % M32, s.e, s.f, s.g⟩

/-- Compress one 64-byte chunk into the state. -/
def compressChunk (st : Sha256State) (chunk : List Nat) : Sha256State :=
  let w := buildSchedule (toWords chunk) 48
  let fin := (sha256K.zip w).foldl (fun s kw => roundStep kw.1 kw.2 s) st
  ⟨(st.a + fin.a) % M32, (st.b + fin.b) % M32, (st.c + fin.c) % M32, (st.d + fin.d) % M32,
   (st.e + fin.e) % M32, (st.f + fin.f) % M32, (st.g + fin.g) % M32, (st.h + fin.h) % M32⟩

/-- The eight 32-bit words of the SHA-256 digest of a byte string. -/
def sha256Words (msg : List Nat) : List Nat :=
  let st := (toChunks (sha256Pad msg)).foldl compressChunk sha256Init
  [st.a, st.b, st.c, st.d, st.e, st.f, st.g, st.h]

/-- Lowercase hex rendering of one 32-bit word, eight digits. -/
def hexWord (n : Nat) : List Char :=
  [hexDigitChar (n / 268435456 % 16), hexDigitChar (n / 16777216 % 16),
   hexDigitChar (n / 1048576 % 16), hexDigitChar (n / 65536 % 16),
   hexDigitChar (n / 4096 % 16), hexDigitChar (n / 256 % 16),
   hexDigitChar (n / 16 % 16), hexDigitChar (n % 16)]

/-- `hashlib.sha256(bytes).hexdigest()`: 64 lowercase hex characters. -/
def sha256HexDigest (msg : List Nat) : List Char :=
  (sha256Words msg).flatMap hexWord

/-! ## `sync/tracker.py` — `EventTracker` -/

namespace EventTracker

/-- `EventTracker.compute_event_hash`: SHA-256 of
`json.dumps({"start": ..., "end": ..., "all_day": ...}, sort_keys=True)`
truncated to its first 16 hex digits.  `sort_keys=True` renders the keys in
sorted order `all_day`, `end`, `start`, which is written out literally
here. -/
def compute_event_hash (event : CalendarEvent) : List Char :=
  let data := Json.obj [(cs ("all_day"), Json.bool event.is_all_day),
                        (cs ("end"), Json.str event.end_date.isoformat),
                        (cs ("start"), Json.str event.start_date.isoformat)]
  (sha256HexDigest (utf8Encode (jsonDumps data))).take 16

/-- `EventTracker.is_placeholder`:
`event.notes is not None and TRACKING_PREFIX in event.notes` — a bare
substring test, with no attempt to decode the payload. -/
def is_placeholder (event : CalendarEvent) : Bool :=
  match event.notes with
  | none => false
  | some s => containsSub TRACKING_PREFIX_CHARS s

/-- `EventTracker.extract_tracking_info`: delegate to
`PlaceholderInfo.from_notes` (and therefore share its uncaught `TypeError`). -/
def extract_tracking_info (event : CalendarEvent) : Except PyErr (Option PlaceholderInfo) :=
  PlaceholderInfo.from_notes event.notes

/-- `EventTracker.create_placeholder_notes`: build a `PlaceholderInfo` with
string fields and default (`None`) `source_start`, and encode it. -/
def create_placeholder_notes (tracking_id source_event_id source_calendar_id source_hash : List Char) :
    List Char :=
  PlaceholderInfo.to_notes_marker
    { tracking_id := Json.str tracking_id, source_event_id := Json.str source_event_id,
      source_calendar_id := Json.str source_calendar_id, source_hash := Json.str source_hash }

end EventTracker

/-! ## `sync/differ.py` — `ChangeDiffer` -/

/-- The `ChangeType` enum; the string payloads are the Python enum values,
used by the engine's error formatting. -/
inductive ChangeType where
  | create : ChangeType
  | update : ChangeType
  | delete : ChangeType
  | noop : ChangeType
deriving DecidableEq

/-- `ChangeType.value` of the Python enum member. -/
def ChangeType.value : ChangeType → List Char
  | ChangeType.create => cs ("create")
  | ChangeType.update => cs ("update")
  | ChangeType.delete => cs ("delete")
  | ChangeType.noop => cs ("noop")

/-- The `SyncAction` dataclass of `differ.py`. -/
structure SyncAction where
  action_type : ChangeType
  source_event : Option CalendarEvent
  target_event : Option CalendarEvent
  reason : List Char

namespace ChangeDiffer

/-- `ChangeDiffer._should_sync_event` (differ.py lines 45–69): excluded are
placeholders, events with availability `AVAILABILITY_FREE = 1`, and events
whose self participant status is `PARTICIPANT_STATUS_PENDING = 1` or
`PARTICIPANT_STATUS_DECLINED = 3` (a `None` availability or status compares
unequal to any int, as in Python). -/
def should_sync_event (event : CalendarEvent) : Bool :=
  if EventTracker.is_placeholder event then false
  else if event.availability == some 1 then false
  else if event.self_participant_status == some 1 then false
  else if event.self_participant_status == some 3 then false
  else true

/-- The placeholder-indexing loop of `compute_sync_actions` (differ.py lines
96–102): for each target event that `is_placeholder` accepts, extract the
tracking info (which can raise `TypeError`, see
`PlaceholderInfo.from_notes`); when a record was decoded and its
`source_calendar_id` equals the given source calendar id, index the event
under `info.get_occurrence_key()` in a Python dict.  A dict key must be
hashable: a decoded list or dict key raises `TypeError` at the assignment. -/
def build_placeholders (cal : List Char) :
    List CalendarEvent → List (Json × CalendarEvent) → Except PyErr (List (Json × CalendarEvent))
  | [], acc => Except.ok acc
  | event :: rest, acc =>
    if EventTracker.is_placeholder event then
      match EventTracker.extract_tracking_info event with
      | Except.error er => Except.error er
      | Except.ok none => build_placeholders cal rest acc
      | Except.ok (some info) =>
        if info.source_calendar_id == Json.str cal then
          match info.get_occurrence_key with
          | Json.arr _ => Except.error PyErr.typeError
          | Json.obj _ => Except.error PyErr.typeError
          | key => build_placeholders cal rest (dictInsert acc key event)
        else build_placeholders cal rest acc
    else build_placeholders cal rest acc

/-- `ChangeDiffer.compute_sync_actions` (differ.py lines 71–146).  Mapping of
the Python control flow:

* `real_source_events = [e for e in source_events if self._should_sync_event(e)]`;
* the placeholder-indexing loop — `build_placeholders`;
* the CREATE/UPDATE loop `for source in real_source_events:` — its first
  statement is `occurrence_key = self.tracker.get_occurrence_key(source)`, and
  the `EventTracker` class defines no attribute `get_occurrence_key`
  (tracker.py defines only `compute_event_hash`, `is_placeholder`,
  `extract_tracking_info` and `create_placeholder_notes`; `get_occurrence_key`
  exists only on `PlaceholderInfo`, taking no event argument), so the first
  iteration raises `AttributeError`; with no qualifying source event the loop
  body never runs;
* `source_keys = {self.tracker.get_occurrence_key(e) for e in real_source_events}`
  — the same missing attribute, but over the already-empty
  `real_source_events` the comprehension evaluates nothing and yields the
  empty set;
* the DELETE loop then emits, in dict insertion order, a DELETE action for
  every indexed placeholder, since no occurrence key is in the empty set. -/
def compute_sync_actions (source_events target_events : List CalendarEvent)
    (source_calendar_id : List Char) : Except PyErr (List SyncAction) :=
  let real_source_events := source_events.filter should_sync_event
  match build_placeholders source_calendar_id target_events [] with
  | Except.error er => Except.error er
  | Except.ok placeholders =>
    match real_source_events with
    | _ :: _ => Except.error PyErr.attributeError
    | [] =>
      Except.ok (placeholders.map (fun p =>
        { action_type := ChangeType.delete, source_event := none, target_event := some p.2,
          reason := cs ("Source event deleted, removing placeholder") }))

end ChangeDiffer

/-! ## `sync/engine.py` — `SyncEngine` -/

/-- The `SyncResult` dataclass of `engine.py` (the engine fills `source_id`
and `target_id` in after `_sync_direction` returns). -/
structure SyncResult where
  source_id : List Char := []
  target_id : List Char := []
  created : Nat := 0
  updated : Nat := 0
  deleted : Nat := 0
  errors : List (List Char) := []
deriving DecidableEq

namespace SyncEngine

/-- `SyncEngine.PLACEHOLDER_TITLE = "Nicht verfügbar"`. -/
def PLACEHOLDER_TITLE : List Char :=
  cs ("Nicht verfügbar")

/-- The keyword arguments of the `adapter.create_event` call issued by
`SyncEngine._create_placeholder` (the adapter's remaining parameter,
`availability`, is left at its default and not passed). -/
structure CreateRequest where
  calendar_id : List Char
  title : List Char
  start_date : DateTime
  end_date : DateTime
  is_all_day : Bool
  notes : Option (List Char)

/-- `SyncEngine._create_placeholder` (engine.py lines 182–206), modelled as
the create request it sends.  `tracking_id` is the value returned by
`PlaceholderInfo.generate_tracking_id()` — a fresh random
`str(uuid.uuid4())[:8]`, passed in here as a parameter since the embedding is
deterministic. -/
def create_placeholder_request (tracking_id : List Char) (source_event : CalendarEvent)
    (source_cal_id target_cal_id : List Char) : CreateRequest :=
  let source_hash := EventTracker.compute_event_hash source_event
  let notes := EventTracker.create_placeholder_notes tracking_id source_event.id
    source_cal_id source_hash
  { calendar_id := target_cal_id, title := PLACEHOLDER_TITLE,
    start_date := source_event.start_date, end_date := source_event.end_date,
    is_all_day := source_event.is_all_day, notes := some notes }

/-- The error message `f"Error in {action.action_type.value}: {e}"` recorded
by `_sync_direction` when applying one action raises. -/
def fmtError (t : ChangeType) (msg : List Char) : List Char :=
  cs ("Error in ") ++ t.value ++ ':' :: ' ' :: msg

/-- The action-application loop of `SyncEngine._sync_direction` (engine.py
lines 150–178) in a non-dry run.  Whether the adapter call (together with the
preparation inside the `try` block) raises, and with what message, is decided
by the environment; it is passed in as `outcome`, indexed by the action's
position: `none` means the action's `try` body returned normally, `some msg`
that it raised an exception rendering as `msg`.  A successful CREATE, UPDATE
or DELETE bumps the corresponding counter; a raised exception is caught and
appended to `errors` as formatted by `fmtError`; a NOOP action matches no
branch, performs no call and can neither count nor fail. -/
def apply_actions (outcome : Nat → Option (List Char)) :
    List SyncAction → Nat → SyncResult → SyncResult
  | [], _, result => result
  | action :: rest, i, result =>
    let result :=
      match action.action_type with
      | ChangeType.noop => result
      | t =>
        match outcome i with
        | none =>
          match t with
          | ChangeType.create => { result with created := result.created + 1 }
          | ChangeType.update => { result with updated := result.updated + 1 }
          | _ => { result with deleted := result.deleted + 1 }
        | some msg => { result with errors := result.errors ++ [fmtError t msg] }
    apply_actions outcome rest (i + 1) result

/-- `_sync_direction`'s loop started on a fresh `SyncResult()`. -/
def sync_direction_apply (actions : List SyncAction) (outcome : Nat → Option (List Char)) :
    SyncResult :=
  apply_actions outcome actions 0 {}

end SyncEngine

/-! ## Spec-side definitions and concrete instances used by the claim
theorems -/

/-- The filter conditions of the specification, read off an action's source
event: availability "free" (1) or self participant status "pending" (1) or
"declined" (3). -/
def excluded_by_filter (a : SyncAction) : Bool :=
  match a.source_event with
  | none => false
  | some e =>
    e.availability == some 1 || e.self_participant_status == some 1 ||
    e.self_participant_status == some 3

/-- Specification-side count (following the spec's words): the number of
actions of type `t`, at positions counted from `i`, whose application
succeeded. -/
def spec_successful_count (outcome : Nat → Option (List Char)) (t : ChangeType) :
    List SyncAction → Nat → Nat
  | [], _ => 0
  | a :: rest, i =>
    (if a.action_type = t ∧ outcome i = none then 1 else 0) +
      spec_successful_count outcome t rest (i + 1)

/-- Specification-side error log (following the spec's words): one formatted
error string per failing CREATE/UPDATE/DELETE action, in action order. -/
def spec_error_log (outcome : Nat → Option (List Char)) :
    List SyncAction → Nat → List (List Char)
  | [], _ => []
  | a :: rest, i =>
    (match a.action_type, outcome i with
     | ChangeType.noop, _ => []
     | t, some msg => [SyncEngine.fmtError t msg]
     | _, none => []) ++ spec_error_log outcome rest (i + 1)

/-- A busy, accepted, annotation-free event (availability Busy = 0, status
Accepted = 2): `_should_sync_event` accepts it. -/
def c1Event : CalendarEvent :=
  { id := cs ("ev1"), calendar_id := cs ("calA"), title := cs ("Standup"),
    start_date := { year := 2024, month := 1, day := 10, hour := 9 },
    end_date := { year := 2024, month := 1, day := 10, hour := 10 },
    is_all_day := false, availability := some 0, self_participant_status := some 2 }

/-- A qualifying source event for the C2 counterexample. -/
def c2SourceEvent : CalendarEvent :=
  { id := cs ("ev2"), calendar_id := cs ("calA"), title := cs ("Planning"),
    start_date := { year := 2024, month := 2, day := 1, hour := 14 },
    end_date := { year := 2024, month := 2, day := 1, hour := 15 },
    is_all_day := false, availability := some 0, self_participant_status := some 2 }

/-- A target event whose annotation carries the tracking prefix around the
JSON scalar `null`: indexing it raises `TypeError` inside `from_notes`. -/
def c2TargetEvent : CalendarEvent :=
  { id := cs ("tg1"), calendar_id := cs ("calB"), title := cs ("Nicht verfügbar"),
    start_date := { year := 2024, month := 2, day := 1, hour := 14 },
    end_date := { year := 2024, month := 2, day := 1, hour := 15 },
    is_all_day := false, notes := some (cs ("[CALSYNC:null]")) }

/-- An event whose annotation contains the tracking prefix but no decodable
record (the payload is cut off). -/
def c3BadEvent : CalendarEvent :=
  { id := cs ("ev3"), calendar_id := cs ("calA"), title := cs ("Notes"),
    start_date := { year := 2024, month := 3, day := 5, hour := 9 },
    end_date := { year := 2024, month := 3, day := 5, hour := 10 },
    is_all_day := false, notes := some (cs ("[CALSYNC:")) }

/-- A well-formed tracking record with plain string fields. -/
def c3GoodRecord : PlaceholderInfo :=
  { tracking_id := Json.str (cs ("t1")), source_event_id := Json.str (cs ("ev9")),
    source_calendar_id := Json.str (cs ("calA")), source_hash := Json.str (cs ("0011223344556677")) }

/-- An event annotated with the encoding of `c3GoodRecord`. -/
def c3GoodEvent : CalendarEvent :=
  { id := cs ("ph9"), calendar_id := cs ("calB"), title := cs ("Nicht verfügbar"),
    start_date := { year := 2024, month := 3, day := 6, hour := 9 },
    end_date := { year := 2024, month := 3, day := 6, hour := 10 },
    is_all_day := false, notes := some (PlaceholderInfo.to_notes_marker c3GoodRecord) }

/-- A tracking record whose `tracking_id` contains the suffix character `]`;
`json.dumps` does not escape it. -/
def c5BadRecord : PlaceholderInfo :=
  { tracking_id := Json.str (cs ("x]y")), source_event_id := Json.str (cs ("ev5")),
    source_calendar_id := Json.str (cs ("calA")), source_hash := Json.str (cs ("8899aabbccddeeff")) }

/-- A well-formed record used to exhibit the failure caused by user text
that itself contains the tracking prefix. -/
def c5GoodRecord : PlaceholderInfo :=
  { tracking_id := Json.str (cs ("t6")), source_event_id := Json.str (cs ("ev6")),
    source_calendar_id := Json.str (cs ("calA")), source_hash := Json.str (cs ("aa11")) }

/-- A record whose optional `source_start` is present but empty: falsy in
Python, so `to_notes_marker` omits it. -/
def c5EmptyStartRecord : PlaceholderInfo :=
  { tracking_id := Json.str (cs ("t7")), source_event_id := Json.str (cs ("ev7")),
    source_calendar_id := Json.str (cs ("calA")), source_hash := Json.str (cs ("bb22")),
    source_start := Json.str [] }

/-- An event with availability Free (1): `_should_sync_event` rejects it. -/
def c7FreeEvent : CalendarEvent :=
  { id := cs ("ev7"), calendar_id := cs ("calA"), title := cs ("Focus time"),
    start_date := { year := 2024, month := 4, day := 2, hour := 9 },
    end_date := { year := 2024, month := 4, day := 2, hour := 11 },
    is_all_day := false, availability := some 1, self_participant_status := some 2 }

/-- A source event carrying title, location and annotation text. -/
def c9EventA : CalendarEvent :=
  { id := cs ("ev9a"), calendar_id := cs ("calA"), title := cs ("Dentist"),
    start_date := { year := 2024, month := 5, day := 7, hour := 8 },
    end_date := { year := 2024, month := 5, day := 7, hour := 9 },
    is_all_day := false, notes := some (cs ("bring the referral")),
    location := some (cs ("Main St 1")), availability := some 0,
    self_participant_status := some 2 }

/-- The same occurrence as `c9EventA` with different title, location and
annotation. -/
def c9EventB : CalendarEvent :=
  { id := cs ("ev9a"), calendar_id := cs ("calA"), title := cs ("Private"),
    start_date := { year := 2024, month := 5, day := 7, hour := 8 },
    end_date := { year := 2024, month := 5, day := 7, hour := 9 },
    is_all_day := false, notes := none, location := none, availability := some 0,
    self_participant_status := some 4 }

/-! ## Claim C1 -/

/-- C1 (code bug): the claim — and the spec — describe
`compute_sync_actions` returning the ordered CREATE/UPDATE/DELETE action
list, but the code calls `self.tracker.get_occurrence_key(source)` and
`EventTracker` defines no such attribute, so the call raises
`AttributeError` on every input with at least one qualifying source event.
This theorem evaluates the embedded code at the failing input: one busy,
accepted source event against an empty target calendar. -/
theorem c1_attribute_error_on_single_qualifying_event :
    ChangeDiffer.compute_sync_actions [c1Event] [] (cs ("calA")) =
      Except.error PyErr.attributeError := rfl

/-! ## Claim C4 -/

/-- C4 (code bug): the claim — and the spec — say `from_notes` never raises,
but a delimited payload that is valid JSON and not an object (here the scalar
`null`, which `json.loads` maps to Python `None`) makes `data["tid"]` raise
`TypeError`, which the `except (ValueError, json.JSONDecodeError, KeyError)`
clause does not catch.  This theorem evaluates the embedded code at the
failing input `"[CALSYNC:null]"`. -/
theorem c4_type_error_on_non_object_payload :
    PlaceholderInfo.from_notes (some (cs ("[CALSYNC:null]"))) =
      Except.error PyErr.typeError := rfl

/-! ## Claim C2 -/

/-- C2 counterexample: the claim quantifies over every input with a
qualifying source event, but when a target event's annotation is the
tracking prefix around a JSON scalar, the placeholder-indexing loop (which
runs before the CREATE/UPDATE loop) raises `TypeError`, not
`AttributeError`. -/
theorem c2_counterexample_type_error_from_target :
    ChangeDiffer.should_sync_event c2SourceEvent = true ∧
    ChangeDiffer.compute_sync_actions [c2SourceEvent] [c2TargetEvent] (cs ("calA")) =
      Except.error PyErr.typeError ∧
    (Except.error PyErr.typeError : Except PyErr (List SyncAction)) ≠
      Except.error PyErr.attributeError := by
  refine ⟨rfl, rfl, ?_⟩
  intro h
  rw [Except.error.injEq] at h
  exact absurd h (by decide)

/-- C2 amended: if additionally the placeholder-indexing loop over the target
events completes without raising (as it does for every target list whose
annotations decode without error — in particular for an empty target list),
then any source list containing a qualifying event makes
`compute_sync_actions` raise `AttributeError` from the nonexistent
`EventTracker.get_occurrence_key`. -/
theorem c2_attribute_error_when_indexing_succeeds
    (src tgt : List CalendarEvent) (cal : List Char)
    (hq : ∃ e ∈ src, ChangeDiffer.should_sync_event e = true)
    (hb : ∃ d, ChangeDiffer.build_placeholders cal tgt [] = Except.ok d) :
    ChangeDiffer.compute_sync_actions src tgt cal = Except.error PyErr.attributeError := by
  obtain ⟨d, hd⟩ := hb
  obtain ⟨e, he, hse⟩ := hq
  have hmem : e ∈ src.filter ChangeDiffer.should_sync_event :=
    List.mem_filter.mpr ⟨he, hse⟩
  cases hf : src.filter ChangeDiffer.should_sync_event with
  | nil => rw [hf] at hmem; cases hmem
  | cons a t => simp only [ChangeDiffer.compute_sync_actions, hd, hf]

/-- C2 amended, witnessed at a concrete input: one qualifying source event
and an empty target list. -/
theorem c2_amended_witness :
    ChangeDiffer.compute_sync_actions [c2SourceEvent] [] (cs ("calA")) =
      Except.error PyErr.attributeError :=
  c2_attribute_error_when_indexing_succeeds [c2SourceEvent] [] (cs ("calA"))
    ⟨c2SourceEvent, List.mem_cons_self _ _, rfl⟩ ⟨[], rfl⟩

/-! ## Claim C3 -/

/-- C3 counterexample: an annotation containing the tracking prefix but no
decodable record (here cut off before any payload) makes `is_placeholder`
answer `true` while `from_notes` returns no record — refuting the claimed
"if and only if". -/
theorem c3_counterexample_prefix_without_record :
    EventTracker.is_placeholder c3BadEvent = true ∧
    PlaceholderInfo.from_notes c3BadEvent.notes = Except.ok none := ⟨rfl, rfl⟩

/-- C3 amended: `is_placeholder` is the bare substring test — true iff the
notes are present and contain the tracking prefix.  Decoding success still
implies `is_placeholder`, but not conversely: prefix-bearing notes with no
syntactically valid record are also classified as placeholders. -/
theorem c3_is_placeholder_iff_prefix_in_notes (e : CalendarEvent) :
    (EventTracker.is_placeholder e = true ↔
      ∃ s, e.notes = some s ∧ containsSub TRACKING_PREFIX_CHARS s = true) ∧
    (∀ r : PlaceholderInfo, PlaceholderInfo.from_notes e.notes = Except.ok (some r) →
      EventTracker.is_placeholder e = true) := by
  constructor
  · cases hn : e.notes with
    | none => simp [EventTracker.is_placeholder, hn]
    | some s => simp [EventTracker.is_placeholder, hn]
  · intro r h
    cases hn : e.notes with
    | none =>
      rw [hn] at h
      simp [PlaceholderInfo.from_notes] at h
    | some s =>
      rw [hn] at h
      cases hidx : indexOfSub TRACKING_PREFIX_CHARS s with
      | none => simp [PlaceholderInfo.from_notes, hidx] at h
      | some i => simp [EventTracker.is_placeholder, hn, containsSub, hidx]

/-- C3 amended, witnessed at a concrete input: an event annotated with a
well-formed tracking record is a placeholder. -/
theorem c3_amended_witness : EventTracker.is_placeholder c3GoodEvent = true :=
  (c3_is_placeholder_iff_prefix_in_notes c3GoodEvent).2 c3GoodRecord rfl

/-! ## Claims C6 and C7 -/

/-- Any action list that `compute_sync_actions` actually returns consists of
DELETE actions only: the CREATE/UPDATE loop raises `AttributeError` on its
first iteration, so a normal return requires the qualifying-source filter to
be empty, after which only the DELETE loop emits actions. -/
lemma compute_ok_all_delete {src tgt : List CalendarEvent} {cal : List Char}
    {l : List SyncAction}
    (h : ChangeDiffer.compute_sync_actions src tgt cal = Except.ok l) :
    ∀ a ∈ l, a.action_type = ChangeType.delete := by
  cases hb : ChangeDiffer.build_placeholders cal tgt [] with
  | error er =>
    simp only [ChangeDiffer.compute_sync_actions, hb] at h
    exact Except.noConfusion h
  | ok p =>
    cases hf : src.filter ChangeDiffer.should_sync_event with
    | cons a t =>
      simp only [ChangeDiffer.compute_sync_actions, hb, hf] at h
      exact Except.noConfusion h
    | nil =>
      simp only [ChangeDiffer.compute_sync_actions, hb, hf, Except.ok.injEq] at h
      subst h
      intro a ha
      obtain ⟨q, hq, rfl⟩ := List.mem_map.mp ha
      rfl

/-- A pairwise relation holds whenever every element satisfies a property
that forces the relation on the left. -/
lemma pairwise_of_forall_left {α : Type} {p : α → Prop} {R : α → α → Prop}
    (h : ∀ a b, p a → R a b) :
    ∀ l : List α, (∀ a ∈ l, p a) → l.Pairwise R
  | [], _ => List.Pairwise.nil
  | a :: t, hall =>
    List.Pairwise.cons (fun b _ => h a b (hall a (List.mem_cons_self a t)))
      (pairwise_of_forall_left h t (fun x hx => hall x (List.mem_cons_of_mem a hx)))

/-- C6: no returned action list contains two CREATE actions whose source
events share an occurrence identity (the claim's instance: the same event
id).  The guarantee holds because a normal return contains only DELETE
actions — any input with a qualifying source event raises `AttributeError`
instead of returning (see C1/C2), so in particular no two CREATEs for one
key are ever emitted in one pass. -/
theorem c6_no_two_creates_for_same_key
    (src tgt : List CalendarEvent) (cal : List Char) (l : List SyncAction)
    (h : ChangeDiffer.compute_sync_actions src tgt cal = Except.ok l) :
    l.Pairwise (fun a b =>
      ¬(a.action_type = ChangeType.create ∧ b.action_type = ChangeType.create ∧
        a.source_event.map CalendarEvent.id = b.source_event.map CalendarEvent.id)) := by
  refine pairwise_of_forall_left (p := fun a => a.action_type = ChangeType.delete)
    ?_ l (compute_ok_all_delete h)
  intro a b ha hcontra
  rw [ha] at hcontra
  exact absurd hcontra.1 (by decide)

/-- C6, witnessed at a concrete input on which `compute_sync_actions`
returns normally. -/
theorem c6_witness :
    ([] : List SyncAction).Pairwise (fun a b =>
      ¬(a.action_type = ChangeType.create ∧ b.action_type = ChangeType.create ∧
        a.source_event.map CalendarEvent.id = b.source_event.map CalendarEvent.id)) :=
  c6_no_two_creates_for_same_key [] [] (cs ("calA")) [] rfl

/-- C7: `_should_sync_event` accepts exactly the non-placeholder events whose
availability is not Free (1) and whose self participant status is neither
Pending (1) nor Declined (3); and no returned action list contains a CREATE
action whose source event is excluded by those conditions (a normal return
contains no CREATE action at all, the qualifying events having been required
to be absent — see C1/C2). -/
theorem c7_should_sync_semantics_and_no_create_for_excluded :
    (∀ e : CalendarEvent, ChangeDiffer.should_sync_event e = true ↔
      (EventTracker.is_placeholder e = false ∧ e.availability ≠ some 1 ∧
       e.self_participant_status ≠ some 1 ∧ e.self_participant_status ≠ some 3)) ∧
    (∀ (src tgt : List CalendarEvent) (cal : List Char) (l : List SyncAction),
      ChangeDiffer.compute_sync_actions src tgt cal = Except.ok l →
      l.filter (fun a => a.action_type == ChangeType.create && excluded_by_filter a) = []) := by
  constructor
  · intro e
    unfold ChangeDiffer.should_sync_event
    split_ifs with h1 h2 h3 h4 <;> simp_all
  · intro src tgt cal l h
    rw [List.filter_eq_nil_iff]
    intro a ha
    rw [compute_ok_all_delete h a ha]
    simp [excluded_by_filter]

/-- C7, witnessed at a concrete input: a source list holding one Free event
produces a normal, CREATE-free result. -/
theorem c7_witness :
    ([] : List SyncAction).filter
      (fun a => a.action_type == ChangeType.create && excluded_by_filter a) = [] :=
  c7_should_sync_semantics_and_no_create_for_excluded.2 [c7FreeEvent] [] (cs ("calA")) [] rfl

/-! ## Claim C10 -/

/-- The action-application loop, characterized over any starting index and
accumulated result: it always processes the entire list, adds one to each
counter per successful action of the matching type, and appends one formatted
error string per failing action, independently of any other action's
outcome. -/
lemma apply_actions_spec (outcome : Nat → Option (List Char)) :
    ∀ (actions : List SyncAction) (i : Nat) (r : SyncResult),
      SyncEngine.apply_actions outcome actions i r =
        { r with
          created := r.created + spec_successful_count outcome ChangeType.create actions i,
          updated := r.updated + spec_successful_count outcome ChangeType.update actions i,
          deleted := r.deleted + spec_successful_count outcome ChangeType.delete actions i,
          errors := r.errors ++ spec_error_log outcome actions i } := by
  intro actions
  induction actions with
  | nil => intro i r; simp [SyncEngine.apply_actions, spec_successful_count, spec_error_log]
  | cons a rest ih =>
    intro i r
    cases ht : a.action_type <;> cases ho : outcome i <;>
      simp [SyncEngine.apply_actions, ht, ho, ih, spec_successful_count, spec_error_log,
        Nat.add_assoc, List.append_assoc]

/-- C10: in one direction, each action is applied independently.  The result
of the loop is exactly: one error string (formatted from the action kind and
the exception text) appended per failing action, in order; created/updated/
deleted counts equal to the number of succeeding actions of each kind; and —
since the result is this total function of the whole list — a failure never
prevents the remaining actions from being applied, and errors never change
the counts contributed by successful actions. -/
theorem c10_direction_counts_and_errors
    (actions : List SyncAction) (outcome : Nat → Option (List Char)) :
    SyncEngine.sync_direction_apply actions outcome =
      { created := spec_successful_count outcome ChangeType.create actions 0,
        updated := spec_successful_count outcome ChangeType.update actions 0,
        deleted := spec_successful_count outcome ChangeType.delete actions 0,
        errors := spec_error_log outcome actions 0 } := by
  unfold SyncEngine.sync_direction_apply
  rw [apply_actions_spec]
  simp

/-! ## Claim C9 -/

/-- C9: the create request issued by `_create_placeholder` for a source event
carries the target calendar id, the fixed non-identifying title, the source's
start, end and all-day flag, and as its only annotation the encoded tracking
record built from the fresh tracking id, the source event id, the pair's
source calendar id and the source's current content hash, with no
`source_start` (`Json.null`, i.e. Python `None` — the code never sets it, so
in particular none is set for non-recurring events).  The final conjunct
states that the request is independent of everything else about the source
event — its title, location, annotation, availability and status never reach
the target calendar. -/
theorem c9_create_request_contents
    (tid : List Char) (source : CalendarEvent) (scal tcal : List Char) :
    (SyncEngine.create_placeholder_request tid source scal tcal).calendar_id = tcal ∧
    (SyncEngine.create_placeholder_request tid source scal tcal).title =
      SyncEngine.PLACEHOLDER_TITLE ∧
    (SyncEngine.create_placeholder_request tid source scal tcal).start_date =
      source.start_date ∧
    (SyncEngine.create_placeholder_request tid source scal tcal).end_date =
      source.end_date ∧
    (SyncEngine.create_placeholder_request tid source scal tcal).is_all_day =
      source.is_all_day ∧
    (SyncEngine.create_placeholder_request tid source scal tcal).notes =
      some (PlaceholderInfo.to_notes_marker
        { tracking_id := Json.str tid, source_event_id := Json.str source.id,
          source_calendar_id := Json.str scal,
          source_hash := Json.str (EventTracker.compute_event_hash source),
          source_start := Json.null }) ∧
    (∀ s2 : CalendarEvent, s2.id = source.id → s2.start_date = source.start_date →
      s2.end_date = source.end_date → s2.is_all_day = source.is_all_day →
      SyncEngine.create_placeholder_request tid s2 scal tcal =
        SyncEngine.create_placeholder_request tid source scal tcal) := by
  refine ⟨rfl, rfl, rfl, rfl, rfl, rfl, ?_⟩
  intro s2 h1 h2 h3 h4
  unfold SyncEngine.create_placeholder_request EventTracker.compute_event_hash
    EventTracker.create_placeholder_notes
  rw [h1, h2, h3, h4]

/-- C9, witnessed at a concrete input: two source events sharing id, times
and all-day flag but differing in title, location, annotation and status
yield the same create request. -/
theorem c9_witness :
    SyncEngine.create_placeholder_request (cs ("abc12345")) c9EventB (cs ("calA")) (cs ("calB")) =
      SyncEngine.create_placeholder_request (cs ("abc12345")) c9EventA (cs ("calA")) (cs ("calB")) :=
  (c9_create_request_contents (cs ("abc12345")) c9EventA (cs ("calA"))
    (cs ("calB"))).2.2.2.2.2.2 c9EventB rfl rfl rfl rfl

/-! ## Claim C8 — helper lemmas

The first two conjuncts of C8 are provable and proved here: the hash is a
function of exactly the timing fields, and its length is fixed at 16.  The
remaining conjunct — that events differing in start, end or the all-day flag
alone always have different truncated SHA-256 digests — is an injectivity
property of 64 truncated bits of SHA-256 and can be neither proved nor
refuted; the claim is therefore left unresolved. -/

/-- Two events agreeing on start, end and the all-day flag hash identically,
whatever their titles, locations, annotations, availabilities or statuses. -/
lemma compute_event_hash_depends_only_on_timing {a b : CalendarEvent}
    (h1 : a.start_date = b.start_date) (h2 : a.end_date = b.end_date)
    (h3 : a.is_all_day = b.is_all_day) :
    EventTracker.compute_event_hash a = EventTracker.compute_event_hash b := by
  unfold EventTracker.compute_event_hash
  rw [h1, h2, h3]

/-- A hex digest is 64 characters long. -/
lemma sha256HexDigest_length (msg : List Nat) : (sha256HexDigest msg).length = 64 := by
  simp [sha256HexDigest, sha256Words, hexWord]

/-- The content hash is a fixed-length (16-character) string. -/
lemma compute_event_hash_length (e : CalendarEvent) :
    (EventTracker.compute_event_hash e).length = 16 := by
  unfold EventTracker.compute_event_hash
  rw [List.length_take, sha256HexDigest_length]
  decide

/-! ## Claim C5 — the codec round trip

The development below proves that decoding inverts encoding exactly when
(a) the first occurrence of the tracking prefix in the assembled annotation
is the encoder's own (guaranteed whenever the user text before the marker
does not contain the prefix), and (b) no encoded field value contains the
suffix character `]`, which `json.dumps` does not escape.  The counterexample
theorem shows the claim fails without (b). -/

/-- `hexDigitChar` inverts through `hexVal` below 16. -/
lemma hexVal_hexDigitChar : ∀ n < 16, hexVal (hexDigitChar n) = some n := by decide


/-- Reading an unescaped closing quote ends the string. -/
lemma parseStr_quote (rest : List Char) : parseStr ('"' :: rest) = some ([], rest) := by
  rw [parseStr.eq_def]; rfl

/-- Reading an escaped quote. -/
lemma parseStr_esc_quote (r : List Char) :
    parseStr ('\\' :: '"' :: r) = consStr '"' (parseStr r) := by
  rw [parseStr.eq_def]; rfl

/-- Reading an escaped backslash. -/
lemma parseStr_esc_backslash (r : List Char) :
    parseStr ('\\' :: '\\' :: r) = consStr '\\' (parseStr r) := by
  rw [parseStr.eq_def]; rfl

/-- Reading an escaped backspace. -/
lemma parseStr_esc_b (r : List Char) :
    parseStr ('\\' :: 'b' :: r) = consStr (Char.ofNat 8) (parseStr r) := by
  rw [parseStr.eq_def]; rfl

/-- Reading an escaped tab. -/
lemma parseStr_esc_t (r : List Char) :
    parseStr ('\\' :: 't' :: r) = consStr (Char.ofNat 9) (parseStr r) := by
  rw [parseStr.eq_def]; rfl

/-- Reading an escaped newline. -/
lemma parseStr_esc_n (r : List Char) :
    parseStr ('\\' :: 'n' :: r) = consStr (Char.ofNat 10) (parseStr r) := by
  rw [parseStr.eq_def]; rfl

/-- Reading an escaped form feed. -/
lemma parseStr_esc_f (r : List Char) :
    parseStr ('\\' :: 'f' :: r) = consStr (Char.ofNat 12) (parseStr r) := by
  rw [parseStr.eq_def]; rfl

/-- Reading an escaped carriage return. -/
lemma parseStr_esc_r (r : List Char) :
    parseStr ('\\' :: 'r' :: r) = consStr (Char.ofNat 13) (parseStr r) := by
  rw [parseStr.eq_def]; rfl

/-- Reading a `\u00XX` escape of a below-BMP code point. -/
lemma parseStr_esc_u00 (h1 h2 : Char) (r : List Char) (n : Nat)
    (hh : hex4 '0' '0' h1 h2 = some n) (hn : n < 55296) :
    parseStr ('\\' :: 'u' :: '0' :: '0' :: h1 :: h2 :: r) = consStr (Char.ofNat n) (parseStr r) := by
  rw [parseStr.eq_def]
  show (match hex4 '0' '0' h1 h2 with
    | none => none
    | some n => if n < 55296 ∨ 57344 ≤ n then consStr (Char.ofNat n) (parseStr r) else none) = _
  rw [hh]
  simp [hn]

/-- Reading a plain character. -/
lemma parseStr_raw (c : Char) (rest : List Char) (h1 : c ≠ '"') (h2 : c ≠ '\\')
    (h3 : ¬ c.toNat < 32) :
    parseStr (c :: rest) = consStr c (parseStr rest) := by
  rw [parseStr.eq_def]
  simp only [if_neg h1, if_neg h2, if_neg h3]

/-- Reading back one `json.dumps`-escaped string: the decoder inverts the
encoder up to the closing quote. -/
lemma parseStr_escString : ∀ (v rest : List Char),
    parseStr (escString v ++ '"' :: rest) = some (v, rest) := by
  intro v
  induction v with
  | nil =>
    intro rest
    rw [show escString [] = [] from rfl, List.nil_append]
    exact parseStr_quote rest
  | cons c v ih =>
    intro rest
    rw [show escString (c :: v) = escChar c ++ escString v from rfl, List.append_assoc]
    unfold escChar
    split_ifs with h1 h2 h3 h4 h5 h6 h7 h8
    · subst h1; rw [List.cons_append, List.cons_append, List.nil_append,
        parseStr_esc_quote, ih]; rfl
    · subst h2; rw [List.cons_append, List.cons_append, List.nil_append,
        parseStr_esc_backslash, ih]; rfl
    · subst h3; rw [List.cons_append, List.cons_append, List.nil_append,
        parseStr_esc_b, ih]; rfl
    · subst h4; rw [List.cons_append, List.cons_append, List.nil_append,
        parseStr_esc_t, ih]; rfl
    · subst h5; rw [List.cons_append, List.cons_append, List.nil_append,
        parseStr_esc_n, ih]; rfl
    · subst h6; rw [List.cons_append, List.cons_append, List.nil_append,
        parseStr_esc_f, ih]; rfl
    · subst h7; rw [List.cons_append, List.cons_append, List.nil_append,
        parseStr_esc_r, ih]; rfl
    · have hh : hex4 '0' '0' (hexDigitChar (c.toNat / 16)) (hexDigitChar (c.toNat % 16)) =
          some c.toNat := by
        unfold hex4
        rw [show hexVal '0' = some 0 from rfl,
          hexVal_hexDigitChar _ (by omega : c.toNat / 16 < 16),
          hexVal_hexDigitChar _ (by omega : c.toNat % 16 < 16)]
        simp only [Option.some.injEq]
        omega
      simp only [List.cons_append, List.nil_append]
      rw [parseStr_esc_u00 _ _ _ _ hh (by omega), ih, Char.ofNat_toNat]
      rfl
    · simp only [List.cons_append, List.nil_append]
      rw [parseStr_raw c _ h1 h2 h8, ih]
      rfl

/-- `skipWs` leaves a non-whitespace head alone. -/
lemma skipWs_nws {c : Char} (t : List Char)
    (h : ¬(c = ' ' ∨ c = Char.ofNat 9 ∨ c = Char.ofNat 10 ∨ c = Char.ofNat 13)) :
    skipWs (c :: t) = c :: t := by
  rw [skipWs.eq_def]
  simp only [if_neg h]

/-- `skipWs` swallows a space. -/
lemma skipWs_space (t : List Char) : skipWs (' ' :: t) = skipWs t := by
  rw [skipWs.eq_def]
  simp

/-- One fueled step of `parseValue` on input whose whitespace-stripped form
opens a string literal. -/
lemma parseValue_str (f : Nat) (s X : List Char) (hskip : skipWs s = '"' :: X) :
    parseValue (f + 1) s = (parseStr X).map (fun p => (Json.str p.1, p.2)) := by
  rw [parseValue.eq_def]
  simp only [hskip]
  rfl

/-- One fueled step of `parseValue` on input whose whitespace-stripped form
opens a nonempty object. -/
lemma parseValue_obj (f : Nat) (s B X : List Char) (hskip : skipWs s = '{' :: B)
    (hskip2 : skipWs B = '"' :: X) :
    parseValue (f + 1) s = parseMembers f ('"' :: X) [] := by
  rw [parseValue.eq_def]
  simp only [hskip, hskip2]
  rfl

/-- `skipWs` instances for the concrete delimiter characters. -/
lemma skipWs_quote (t : List Char) : skipWs ('"' :: t) = '"' :: t := skipWs_nws t (by decide)

/-- `skipWs` on a colon head. -/
lemma skipWs_colon (t : List Char) : skipWs (':' :: t) = ':' :: t := skipWs_nws t (by decide)

/-- `skipWs` on a comma head. -/
lemma skipWs_comma (t : List Char) : skipWs (',' :: t) = ',' :: t := skipWs_nws t (by decide)

/-- `skipWs` on a closing-brace head. -/
lemma skipWs_rbrace (t : List Char) : skipWs ('}' :: t) = '}' :: t := skipWs_nws t (by decide)

/-- `skipWs` on an opening-brace head. -/
lemma skipWs_lbrace (t : List Char) : skipWs ('{' :: t) = '{' :: t := skipWs_nws t (by decide)

/-- A rendered nonempty member list starts with a quote. -/
lemma jsonDumpsMembers_cons_shape (k : List Char) (w : Json) (ms : List (List Char × Json)) :
    ∃ T, jsonDumpsMembers ((k, w) :: ms) = '"' :: T := by
  cases ms with
  | nil => exact ⟨_, by rw [jsonDumpsMembers.eq_def]; rfl⟩
  | cons m ms => exact ⟨_, by rw [jsonDumpsMembers.eq_def]; rfl⟩

/-- The member loop of the object parser reads back a rendered list of
string-valued members, building the same Python dict the decoder builds. -/
lemma parseMembers_strings (rest : List Char) :
    ∀ (kvs : List (List Char × List Char)) (f : Nat) (acc : List (List Char × Json)),
      kvs ≠ [] → kvs.length < f →
      parseMembers f
        (jsonDumpsMembers (kvs.map (fun p => (p.1, Json.str p.2))) ++ '}' :: rest) acc =
        some (Json.obj ((kvs.map (fun p => (p.1, Json.str p.2))).foldl
          (fun d p => dictInsert d p.1 p.2) acc), rest) := by
  intro kvs
  induction kvs with
  | nil => intro f acc h _; exact absurd rfl h
  | cons kv kvs ih =>
    intro f acc _ hf
    obtain ⟨k, v⟩ := kv
    obtain ⟨g, rfl⟩ : ∃ g, f = g + 2 := ⟨f - 2, by simp at hf; omega⟩
    cases kvs with
    | nil =>
      simp only [List.map, List.foldl]
      have hdm : jsonDumpsMembers [(k, Json.str v)] ++ '}' :: rest
          = '"' :: (escString k ++ '"' :: (':' :: ' ' :: ('"' :: (escString v ++ '"' :: ('}' :: rest))))) := by
        show (('"' :: escString k) ++ ('"' :: ':' :: ' ' :: (('"' :: escString v) ++ ['"']))) ++ '}' :: rest = _
        simp [List.append_assoc]
      rw [hdm, parseMembers.eq_def]
      have hv : parseValue (g + 1) (' ' :: ('"' :: (escString v ++ '"' :: ('}' :: rest))))
          = some (Json.str v, '}' :: rest) := by
        rw [parseValue_str _ _ _ (by rw [skipWs_space, skipWs_quote]), parseStr_escString]
        rfl
      simp only [parseStr_escString, skipWs_colon, skipWs_space, skipWs_quote, skipWs_rbrace, hv]
    | cons kv2 ms =>
      obtain ⟨k2, v2⟩ := kv2
      have hne2 : ((k2, v2) :: ms).length < g + 1 := by simp at hf ⊢; omega
      have hih := ih (g + 1) (dictInsert acc k (Json.str v)) (by simp) hne2
      obtain ⟨T, hT⟩ := jsonDumpsMembers_cons_shape k2 (Json.str v2)
        (ms.map (fun p => (p.1, Json.str p.2)))
      have hdm : jsonDumpsMembers (((k, v) :: (k2, v2) :: ms).map (fun p => (p.1, Json.str p.2))) ++ '}' :: rest
          = '"' :: (escString k ++ '"' :: (':' :: ' ' :: ('"' :: (escString v ++ '"' :: (',' :: ' ' ::
              (jsonDumpsMembers (((k2, v2) :: ms).map (fun p => (p.1, Json.str p.2))) ++ '}' :: rest)))))) := by
        rw [show (((k, v) :: (k2, v2) :: ms).map (fun p => (p.1, Json.str p.2)))
            = (k, Json.str v) :: ((k2, v2) :: ms).map (fun p => (p.1, Json.str p.2)) from rfl]
        rw [show ((k2, v2) :: ms).map (fun p => (p.1, Json.str p.2))
            = (k2, Json.str v2) :: ms.map (fun p => (p.1, Json.str p.2)) from rfl]
        rw [jsonDumpsMembers.eq_def]
        have hjv : jsonDumps (Json.str v) = '"' :: (escString v ++ ['"']) := rfl
        simp [hjv, List.append_assoc]
      rw [hdm, parseMembers.eq_def]
      have hv : parseValue (g + 1) (' ' :: ('"' :: (escString v ++ '"' :: (',' :: ' ' ::
          (jsonDumpsMembers (((k2, v2) :: ms).map (fun p => (p.1, Json.str p.2))) ++ '}' :: rest)))))
          = some (Json.str v, ',' :: ' ' ::
            (jsonDumpsMembers (((k2, v2) :: ms).map (fun p => (p.1, Json.str p.2))) ++ '}' :: rest)) := by
        rw [parseValue_str _ _ _ (by rw [skipWs_space, skipWs_quote]), parseStr_escString]
        rfl
      have hskipT : skipWs (' ' :: (jsonDumpsMembers (((k2, v2) :: ms).map (fun p => (p.1, Json.str p.2))) ++ '}' :: rest))
          = jsonDumpsMembers (((k2, v2) :: ms).map (fun p => (p.1, Json.str p.2))) ++ '}' :: rest := by
        rw [skipWs_space]
        rw [show ((k2, v2) :: ms).map (fun p => (p.1, Json.str p.2))
            = (k2, Json.str v2) :: ms.map (fun p => (p.1, Json.str p.2)) from rfl, hT]
        rw [List.cons_append, skipWs_quote]
      simp only [parseStr_escString, skipWs_colon, skipWs_space, skipWs_quote, skipWs_comma, hv, hskipT, hih]
      simp [List.map, List.foldl]

/-- A rendered member list is at least as long as the member count. -/
lemma jsonDumpsMembers_length_ge : ∀ ms : List (List Char × Json),
    ms.length ≤ (jsonDumpsMembers ms).length := by
  intro ms
  induction ms with
  | nil => simp [show jsonDumpsMembers [] = [] from rfl]
  | cons m ms ih =>
    obtain ⟨k, v⟩ := m
    cases ms with
    | nil =>
      rw [jsonDumpsMembers.eq_def]
      simp
    | cons m2 ms2 =>
      rw [jsonDumpsMembers.eq_def]
      simp only [List.length_cons, List.length_append] at ih ⊢
      omega

/-- `json.loads` reads back a `json.dumps`-rendered nonempty object with
string values, producing the dict built by inserting the members in order. -/
lemma jsonLoads_dumps_obj (kvs : List (List Char × List Char)) (hne : kvs ≠ []) :
    jsonLoads (jsonDumps (Json.obj (kvs.map (fun p => (p.1, Json.str p.2))))) =
      Except.ok (Json.obj ((kvs.map (fun p => (p.1, Json.str p.2))).foldl
        (fun d p => dictInsert d p.1 p.2) [])) := by
  obtain ⟨⟨k, v⟩, kvs', rfl⟩ : ∃ kv kvs', kvs = kv :: kvs' := by
    cases kvs with
    | nil => exact absurd rfl hne
    | cons a b => exact ⟨a, b, rfl⟩
  have hMc : ((k, v) :: kvs').map (fun p => (p.1, Json.str p.2))
      = (k, Json.str v) :: kvs'.map (fun p => (p.1, Json.str p.2)) := rfl
  obtain ⟨T, hT⟩ := jsonDumpsMembers_cons_shape k (Json.str v)
    (kvs'.map (fun p => (p.1, Json.str p.2)))
  have hdump : jsonDumps (Json.obj (((k, v) :: kvs').map (fun p => (p.1, Json.str p.2))))
      = '{' :: (jsonDumpsMembers (((k, v) :: kvs').map (fun p => (p.1, Json.str p.2))) ++ ['}']) := by
    rw [jsonDumps.eq_def]; rfl
  unfold jsonLoads
  rw [hdump]
  have hsk : skipWs (jsonDumpsMembers (((k, v) :: kvs').map (fun p => (p.1, Json.str p.2))) ++ ['}'])
      = '"' :: (T ++ ['}']) := by
    rw [hMc, hT, List.cons_append, skipWs_quote]
  have hlen : ('{' :: (jsonDumpsMembers (((k, v) :: kvs').map (fun p => (p.1, Json.str p.2))) ++ ['}'])).length
      = (jsonDumpsMembers (((k, v) :: kvs').map (fun p => (p.1, Json.str p.2)))).length + 2 := by
    simp
  rw [hlen, parseValue_obj _ _ _ _ (skipWs_lbrace _) hsk]
  rw [show ('"' :: (T ++ ['}']) : List Char)
      = jsonDumpsMembers (((k, v) :: kvs').map (fun p => (p.1, Json.str p.2))) ++ '}' :: [] from by
      rw [hMc, hT]; rfl]
  rw [parseMembers_strings [] ((k, v) :: kvs') _ [] (by simp) (by
    have := jsonDumpsMembers_length_ge (((k, v) :: kvs').map (fun p => (p.1, Json.str p.2)))
    simp only [List.length_map] at this
    omega)]
  rfl

/-- A pattern that is a prefix of the input is found at index 0. -/
lemma indexOfSub_of_isPrefixOf {pat s : List Char} (hne : pat ≠ [])
    (h : pat.isPrefixOf s = true) : indexOfSub pat s = some 0 := by
  cases s with
  | nil =>
    cases pat with
    | nil => exact absurd rfl hne
    | cons a t => simp [List.isPrefixOf] at h
  | cons c t => simp [indexOfSub, h]

/-- The tracking prefix cannot straddle the boundary between user text and
the marker: it contains `[` only at its first position, so an occurrence
beginning strictly inside `u` and reaching into the marker would need a
second `[`; an occurrence fitting inside `u` is a prefix of `u`. -/
lemma prefix_no_overlap (u tail : List Char) (hu : u ≠ [])
    (hp : TRACKING_PREFIX_CHARS.isPrefixOf (u ++ (TRACKING_PREFIX_CHARS ++ tail)) = true) :
    TRACKING_PREFIX_CHARS.isPrefixOf u = true := by
  rw [List.isPrefixOf_iff_prefix] at hp ⊢
  by_cases hlen : TRACKING_PREFIX_CHARS.length ≤ u.length
  · rw [List.prefix_iff_eq_take] at hp ⊢
    rw [List.take_append_of_le_length hlen] at hp
    exact hp
  · exfalso
    push_neg at hlen
    have h0 : 0 < u.length := List.length_pos.mpr hu
    have hget : TRACKING_PREFIX_CHARS[u.length]? = some ('[') := by
      have hp' := List.prefix_iff_eq_take.mp hp
      calc TRACKING_PREFIX_CHARS[u.length]?
          = (List.take TRACKING_PREFIX_CHARS.length (u ++ (TRACKING_PREFIX_CHARS ++ tail)))[u.length]? := by
            rw [← hp']
        _ = (u ++ (TRACKING_PREFIX_CHARS ++ tail))[u.length]? := by
            rw [List.getElem?_take, if_pos hlen]
        _ = (TRACKING_PREFIX_CHARS ++ tail)[u.length - u.length]? :=
            List.getElem?_append_right (Nat.le_refl _)
        _ = (TRACKING_PREFIX_CHARS ++ tail)[0]? := by rw [Nat.sub_self]
        _ = some ('[') := rfl
    have hno : ∀ k, k < TRACKING_PREFIX_CHARS.length → 0 < k →
        ¬ TRACKING_PREFIX_CHARS[k]? = some ('[') := by decide
    exact hno u.length hlen h0 hget

/-- When the user text before the marker does not contain the tracking
prefix, `str.index` finds the encoder's own prefix. -/
lemma indexOfSub_prefix_marker (tail : List Char) :
    ∀ pre : List Char, containsSub TRACKING_PREFIX_CHARS pre = false →
      indexOfSub TRACKING_PREFIX_CHARS (pre ++ (TRACKING_PREFIX_CHARS ++ tail)) = some pre.length := by
  intro pre
  induction pre with
  | nil =>
    intro _
    simp only [List.nil_append, List.length_nil]
    exact indexOfSub_of_isPrefixOf (by decide)
      (List.isPrefixOf_iff_prefix.mpr (List.prefix_append _ _))
  | cons c pre' ih =>
    intro hpre
    have hb : TRACKING_PREFIX_CHARS.isPrefixOf (c :: pre') = false := by
      cases hbp : TRACKING_PREFIX_CHARS.isPrefixOf (c :: pre') with
      | false => rfl
      | true =>
        rw [containsSub, indexOfSub_of_isPrefixOf (by decide) hbp] at hpre
        simp at hpre
    have hpre' : containsSub TRACKING_PREFIX_CHARS pre' = false := by
      rw [containsSub] at hpre ⊢
      rw [show indexOfSub TRACKING_PREFIX_CHARS (c :: pre')
          = if TRACKING_PREFIX_CHARS.isPrefixOf (c :: pre') = true then some 0
            else (indexOfSub TRACKING_PREFIX_CHARS pre').map (· + 1) from by
          simp [indexOfSub]] at hpre
      rw [hb] at hpre
      simpa using hpre
    have hb2 : TRACKING_PREFIX_CHARS.isPrefixOf ((c :: pre') ++ (TRACKING_PREFIX_CHARS ++ tail)) = false := by
      cases hbp : TRACKING_PREFIX_CHARS.isPrefixOf ((c :: pre') ++ (TRACKING_PREFIX_CHARS ++ tail)) with
      | false => rfl
      | true =>
        have := prefix_no_overlap (c :: pre') tail (by simp) hbp
        rw [hb] at this
        exact Bool.noConfusion this
    rw [List.cons_append]
    rw [show indexOfSub TRACKING_PREFIX_CHARS (c :: (pre' ++ (TRACKING_PREFIX_CHARS ++ tail)))
        = if TRACKING_PREFIX_CHARS.isPrefixOf (c :: (pre' ++ (TRACKING_PREFIX_CHARS ++ tail))) = true
          then some 0
          else (indexOfSub TRACKING_PREFIX_CHARS (pre' ++ (TRACKING_PREFIX_CHARS ++ tail))).map (· + 1)
        from by simp [indexOfSub]]
    rw [← List.cons_append, hb2]
    simp only [Bool.false_eq_true, if_false, ih hpre', Option.map_some']
    simp

/-- `str.index(ch, ...)` finds the first occurrence of a single character
placed right after a text free of it. -/
lemma indexOfSub_single_append (ch : Char) :
    ∀ (payload post : List Char), ch ∉ payload →
      indexOfSub [ch] (payload ++ ch :: post) = some payload.length := by
  intro payload
  induction payload with
  | nil =>
    intro post _
    simp only [List.nil_append, List.length_nil]
    apply indexOfSub_of_isPrefixOf (by simp)
    simp [List.isPrefixOf]
  | cons d p' ih =>
    intro post h
    have hne : ch ≠ d := fun he => h (by rw [he]; exact List.mem_cons_self _ _)
    have hmem : ch ∉ p' := fun hm => h (List.mem_cons_of_mem _ hm)
    rw [List.cons_append]
    rw [show indexOfSub [ch] (d :: (p' ++ ch :: post))
        = if [ch].isPrefixOf (d :: (p' ++ ch :: post)) = true then some 0
          else (indexOfSub [ch] (p' ++ ch :: post)).map (· + 1) from by simp [indexOfSub]]
    rw [show [ch].isPrefixOf (d :: (p' ++ ch :: post)) = false from by
      simp [List.isPrefixOf, hne]]
    simp only [Bool.false_eq_true, if_false, ih post hmem, Option.map_some']
    simp

/-- Decoding an annotation assembled from prefix-free user text, the
tracking prefix, a `]`-free payload and the closing suffix: the delimiters
are located exactly and the payload is handed to the JSON decoder. -/
lemma from_notes_delimited (pre payload post : List Char)
    (hpre : containsSub TRACKING_PREFIX_CHARS pre = false)
    (hnb : ']' ∉ payload) :
    PlaceholderInfo.from_notes (some (pre ++ (TRACKING_PREFIX_CHARS ++ (payload ++ (']' :: post))))) =
      (match jsonLoads payload with
       | Except.error _ => Except.ok none
       | Except.ok (Json.obj data) =>
         (match dictLookup data (cs ("tid")), dictLookup data (cs ("src")),
               dictLookup data (cs ("scal")), dictLookup data (cs ("hash")) with
         | some tid, some src, some scal, some hash =>
           Except.ok (some
             { tracking_id := tid, source_event_id := src, source_calendar_id := scal,
               source_hash := hash,
               source_start := (dictLookup data (cs ("sstart"))).getD Json.null })
         | _, _, _, _ => Except.ok none)
       | Except.ok _ => Except.error PyErr.typeError) := by
  have hidx := indexOfSub_prefix_marker (payload ++ (']' :: post)) pre hpre
  have hdrop : (pre ++ (TRACKING_PREFIX_CHARS ++ (payload ++ (']' :: post)))).drop
      (pre.length + TRACKING_PREFIX_CHARS.length) = payload ++ (']' :: post) := by
    rw [← List.length_append pre TRACKING_PREFIX_CHARS, ← List.append_assoc, List.drop_left]
  have hfind : indexOfCharFrom TRACKING_SUFFIX_CHAR
      (pre ++ (TRACKING_PREFIX_CHARS ++ (payload ++ (']' :: post))))
      (pre.length + TRACKING_PREFIX_CHARS.length)
      = some (payload.length + (pre.length + TRACKING_PREFIX_CHARS.length)) := by
    rw [show TRACKING_SUFFIX_CHAR = ']' from rfl, indexOfCharFrom, hdrop,
      indexOfSub_single_append _ _ _ hnb]
    rfl
  have hslice : ((pre ++ (TRACKING_PREFIX_CHARS ++ (payload ++ (']' :: post)))).drop
      (pre.length + TRACKING_PREFIX_CHARS.length)).take
      (payload.length + (pre.length + TRACKING_PREFIX_CHARS.length) -
        (pre.length + TRACKING_PREFIX_CHARS.length)) = payload := by
    rw [hdrop, Nat.add_sub_cancel, List.take_left]
  simp only [PlaceholderInfo.from_notes, hidx, hfind, hslice]

/-- Non-membership distributes over append. -/
lemma not_mem_append2 {α : Type} {a : α} {l1 l2 : List α} (h1 : a ∉ l1) (h2 : a ∉ l2) :
    a ∉ l1 ++ l2 := by
  simp [List.mem_append, h1, h2]

/-- Non-membership distributes over cons. -/
lemma not_mem_cons2 {α : Type} {a b : α} {l : List α} (h1 : a ≠ b) (h2 : a ∉ l) :
    a ∉ b :: l := by
  simp [List.mem_cons, h1, h2]

/-- No hex digit renders as the suffix character. -/
lemma hexDigitChar_ne_rbracket : ∀ n : Nat, hexDigitChar n ≠ ']'
  | 0 => by decide
  | 1 => by decide
  | 2 => by decide
  | 3 => by decide
  | 4 => by decide
  | 5 => by decide
  | 6 => by decide
  | 7 => by decide
  | 8 => by decide
  | 9 => by decide
  | 10 => by decide
  | 11 => by decide
  | 12 => by decide
  | 13 => by decide
  | 14 => by decide
  | 15 => by decide
  | n + 16 => by rw [show hexDigitChar (n + 16) = 'f' from rfl]; decide

/-- `json.dumps` escaping introduces no `]`: only the character `]` itself
renders with one. -/
lemma escChar_not_mem_rbracket {c : Char} (hc : c ≠ ']') : ']' ∉ escChar c := by
  unfold escChar
  split_ifs
  · exact not_mem_cons2 (by decide) (not_mem_cons2 (by decide) (List.not_mem_nil _))
  · exact not_mem_cons2 (by decide) (not_mem_cons2 (by decide) (List.not_mem_nil _))
  · exact not_mem_cons2 (by decide) (not_mem_cons2 (by decide) (List.not_mem_nil _))
  · exact not_mem_cons2 (by decide) (not_mem_cons2 (by decide) (List.not_mem_nil _))
  · exact not_mem_cons2 (by decide) (not_mem_cons2 (by decide) (List.not_mem_nil _))
  · exact not_mem_cons2 (by decide) (not_mem_cons2 (by decide) (List.not_mem_nil _))
  · exact not_mem_cons2 (by decide) (not_mem_cons2 (by decide) (List.not_mem_nil _))
  · exact not_mem_cons2 (by decide) (not_mem_cons2 (by decide) (not_mem_cons2 (by decide)
      (not_mem_cons2 (by decide) (not_mem_cons2 (Ne.symm (hexDigitChar_ne_rbracket _))
        (not_mem_cons2 (Ne.symm (hexDigitChar_ne_rbracket _)) (List.not_mem_nil _))))))
  · exact not_mem_cons2 (Ne.symm hc) (List.not_mem_nil _)

/-- A `]`-free string renders to a `]`-free escaped form. -/
lemma escString_not_mem_rbracket {s : List Char} (hs : ']' ∉ s) : ']' ∉ escString s := by
  intro hmem
  rw [escString] at hmem
  obtain ⟨c, hc, hm⟩ := List.mem_flatMap.mp hmem
  exact escChar_not_mem_rbracket (fun he => hs (he ▸ hc)) hm

/-- A rendered string literal of a `]`-free string contains no `]`. -/
lemma jsonDumps_str_not_mem_rbracket {v : List Char} (hv : ']' ∉ v) :
    ']' ∉ jsonDumps (Json.str v) := by
  rw [show jsonDumps (Json.str v) = '"' :: (escString v ++ ['"']) from rfl]
  exact not_mem_cons2 (by decide)
    (not_mem_append2 (escString_not_mem_rbracket hv)
      (not_mem_cons2 (by decide) (List.not_mem_nil _)))

/-- A rendered member list of `]`-free keys and string values contains no
`]`. -/
lemma jsonDumpsMembers_strings_not_mem_rbracket :
    ∀ kvs : List (List Char × List Char),
      (∀ p ∈ kvs, ']' ∉ p.1 ∧ ']' ∉ p.2) →
      ']' ∉ jsonDumpsMembers (kvs.map (fun p => (p.1, Json.str p.2))) := by
  intro kvs
  induction kvs with
  | nil => intro _; simp [show jsonDumpsMembers [] = [] from rfl]
  | cons kv kvs ih =>
    intro hall
    obtain ⟨k, v⟩ := kv
    have hk := (hall (k, v) (List.mem_cons_self _ _)).1
    have hv := (hall (k, v) (List.mem_cons_self _ _)).2
    cases kvs with
    | nil =>
      have hdm : jsonDumpsMembers ([(k, v)].map fun p => (p.1, Json.str p.2))
          = ('"' :: escString k) ++ ('"' :: ':' :: ' ' :: jsonDumps (Json.str v)) := by
        rw [show ([(k, v)].map fun p => (p.1, Json.str p.2)) = [(k, Json.str v)] from rfl,
          jsonDumpsMembers.eq_def]
        try simp [List.append_assoc]
      rw [hdm]
      exact not_mem_append2 (not_mem_cons2 (by decide) (escString_not_mem_rbracket hk))
        (not_mem_cons2 (by decide) (not_mem_cons2 (by decide) (not_mem_cons2 (by decide)
          (jsonDumps_str_not_mem_rbracket hv))))
    | cons kv2 ms =>
      have ihh := ih (fun p hp => hall p (List.mem_cons_of_mem _ hp))
      have hdm : jsonDumpsMembers (((k, v) :: kv2 :: ms).map fun p => (p.1, Json.str p.2))
          = ('"' :: escString k) ++ (('"' :: ':' :: ' ' :: jsonDumps (Json.str v)) ++
            (',' :: ' ' :: jsonDumpsMembers ((kv2 :: ms).map fun p => (p.1, Json.str p.2)))) := by
        obtain ⟨k2, v2⟩ := kv2
        rw [show (((k, v) :: (k2, v2) :: ms).map fun p => (p.1, Json.str p.2))
            = (k, Json.str v) :: (k2, Json.str v2) :: (ms.map fun p => (p.1, Json.str p.2)) from rfl,
          jsonDumpsMembers.eq_def]
        try simp [List.append_assoc]
      rw [hdm]
      exact not_mem_append2 (not_mem_cons2 (by decide) (escString_not_mem_rbracket hk))
        (not_mem_append2
          (not_mem_cons2 (by decide) (not_mem_cons2 (by decide) (not_mem_cons2 (by decide)
            (jsonDumps_str_not_mem_rbracket hv))))
          (not_mem_cons2 (by decide) (not_mem_cons2 (by decide) ihh)))

lemma jsonDumps_obj_strings_not_mem_rbracket
    (kvs : List (List Char × List Char))
    (hall : ∀ p ∈ kvs, ']' ∉ p.1 ∧ ']' ∉ p.2) :
    ']' ∉ jsonDumps (Json.obj (kvs.map (fun p => (p.1, Json.str p.2)))) := by
  have hdm : jsonDumps (Json.obj (kvs.map (fun p => (p.1, Json.str p.2))))
      = '{' :: (jsonDumpsMembers (kvs.map (fun p => (p.1, Json.str p.2))) ++ ['}']) := by
    rw [jsonDumps.eq_def]; rfl
  rw [hdm]
  exact not_mem_cons2 (by decide)
    (not_mem_append2 (jsonDumpsMembers_strings_not_mem_rbracket kvs hall)
      (not_mem_cons2 (by decide) (List.not_mem_nil _)))

/-! ## Claim C5 — the theorems -/

/-- C5 counterexample: the unrestricted claim fails in three ways, each at a
concrete input.  (1) A record whose `tracking_id` contains `]` does not
round-trip even with empty surrounding text — `json.dumps` leaves `]`
unescaped, `from_notes` truncates the payload at its first `]`, and decoding
returns no record.  (2) User text before the marker that itself contains the
tracking prefix hijacks `notes.index`, and decoding fails.  (3) A present
but empty `source_start` is falsy, is omitted by the encoder, and decodes
back as `None` (`Json.null`) rather than the empty string, so the decoded
record differs from the encoded one. -/
theorem c5_counterexample_suffix_in_value :
    (PlaceholderInfo.from_notes (some (PlaceholderInfo.to_notes_marker c5BadRecord)) =
        Except.ok none ∧
      (Except.ok none : Except PyErr (Option PlaceholderInfo)) ≠ Except.ok (some c5BadRecord)) ∧
    PlaceholderInfo.from_notes (some (cs ("[CALSYNC:x]") ++
        PlaceholderInfo.to_notes_marker c5GoodRecord ++ [])) = Except.ok none ∧
    PlaceholderInfo.from_notes (some (PlaceholderInfo.to_notes_marker c5EmptyStartRecord)) ≠
      Except.ok (some c5EmptyStartRecord) := by
  refine ⟨⟨rfl, ?_⟩, rfl, ?_⟩
  · intro h
    rw [Except.ok.injEq] at h
    exact Option.noConfusion h
  · intro h
    rw [show PlaceholderInfo.from_notes (some (PlaceholderInfo.to_notes_marker c5EmptyStartRecord))
        = Except.ok (some
          { tracking_id := Json.str (cs ("t7")), source_event_id := Json.str (cs ("ev7")),
            source_calendar_id := Json.str (cs ("calA")), source_hash := Json.str (cs ("bb22")),
            source_start := Json.null }) from rfl] at h
    rw [Except.ok.injEq, Option.some_inj] at h
    have := congrArg PlaceholderInfo.source_start h
    exact Json.noConfusion this

/-- C5 amended: encoding a record with string fields round-trips through
`from_notes` with arbitrary user text before and after the marker, provided
(a) no encoded field value contains the suffix character `]` (which
`json.dumps` does not escape — the counterexample shows the claim fails
without this), (b) a present `source_start` is non-empty (a falsy value is
not encoded at all and decodes back as absent), and (c) the user text before
the marker does not contain the tracking prefix (else decoding starts at the
earlier occurrence).  The decoded optional `source_start` is `None`
(`Json.null`), not an empty string, when absent. -/
theorem c5_roundtrip_amended
    (tid src scal hash : List Char) (sstart : Option (List Char)) (pre post : List Char)
    (htid : ']' ∉ tid) (hsrc : ']' ∉ src) (hscal : ']' ∉ scal) (hhash : ']' ∉ hash)
    (hss : ∀ s ∈ sstart, s ≠ [] ∧ ']' ∉ s)
    (hpre : containsSub TRACKING_PREFIX_CHARS pre = false) :
    PlaceholderInfo.from_notes (some (pre ++ PlaceholderInfo.to_notes_marker
      { tracking_id := Json.str tid, source_event_id := Json.str src,
        source_calendar_id := Json.str scal, source_hash := Json.str hash,
        source_start := (sstart.map Json.str).getD Json.null } ++ post)) =
      Except.ok (some
        { tracking_id := Json.str tid, source_event_id := Json.str src,
          source_calendar_id := Json.str scal, source_hash := Json.str hash,
          source_start := (sstart.map Json.str).getD Json.null }) := by
  cases sstart with
  | none =>
    have hmk : PlaceholderInfo.to_notes_marker
        { tracking_id := Json.str tid, source_event_id := Json.str src,
          source_calendar_id := Json.str scal, source_hash := Json.str hash,
          source_start := (Option.map Json.str none).getD Json.null }
        = TRACKING_PREFIX_CHARS ++
          (jsonDumps (Json.obj ([(cs ("tid"), tid), (cs ("src"), src), (cs ("scal"), scal),
              (cs ("hash"), hash)].map (fun p => (p.1, Json.str p.2)))) ++ [']']) := rfl
    have hnotes : pre ++ PlaceholderInfo.to_notes_marker
        { tracking_id := Json.str tid, source_event_id := Json.str src,
          source_calendar_id := Json.str scal, source_hash := Json.str hash,
          source_start := (Option.map Json.str none).getD Json.null } ++ post
        = pre ++ (TRACKING_PREFIX_CHARS ++
          (jsonDumps (Json.obj ([(cs ("tid"), tid), (cs ("src"), src), (cs ("scal"), scal),
              (cs ("hash"), hash)].map (fun p => (p.1, Json.str p.2)))) ++ (']' :: post))) := by
      rw [hmk]
      simp [List.append_assoc]
    rw [hnotes, from_notes_delimited pre _ post hpre
      (jsonDumps_obj_strings_not_mem_rbracket _ (by
        intro p hp
        simp only [List.mem_cons, List.not_mem_nil, or_false] at hp
        rcases hp with rfl | rfl | rfl | rfl
        · exact ⟨by show ']' ∉ cs ("tid"); decide, htid⟩
        · exact ⟨by show ']' ∉ cs ("src"); decide, hsrc⟩
        · exact ⟨by show ']' ∉ cs ("scal"); decide, hscal⟩
        · exact ⟨by show ']' ∉ cs ("hash"); decide, hhash⟩))]
    rw [jsonLoads_dumps_obj _ (by simp)]
    rfl
  | some sv =>
    obtain ⟨hsv1, hsv2⟩ := hss sv (by rw [Option.mem_def])
    have htr : (Json.str sv).truthy = true := by
      simp [Json.truthy, hsv1]
    have hmk : PlaceholderInfo.to_notes_marker
        { tracking_id := Json.str tid, source_event_id := Json.str src,
          source_calendar_id := Json.str scal, source_hash := Json.str hash,
          source_start := (Option.map Json.str (some sv)).getD Json.null }
        = TRACKING_PREFIX_CHARS ++
          (jsonDumps (Json.obj ([(cs ("tid"), tid), (cs ("src"), src), (cs ("scal"), scal),
              (cs ("hash"), hash), (cs ("sstart"), sv)].map (fun p => (p.1, Json.str p.2)))) ++ [']']) := by
      unfold PlaceholderInfo.to_notes_marker
      rw [show ((Option.map Json.str (some sv)).getD Json.null) = Json.str sv from rfl] at *
      simp only [htr, if_true]
      rfl
    have hnotes : pre ++ PlaceholderInfo.to_notes_marker
        { tracking_id := Json.str tid, source_event_id := Json.str src,
          source_calendar_id := Json.str scal, source_hash := Json.str hash,
          source_start := (Option.map Json.str (some sv)).getD Json.null } ++ post
        = pre ++ (TRACKING_PREFIX_CHARS ++
          (jsonDumps (Json.obj ([(cs ("tid"), tid), (cs ("src"), src), (cs ("scal"), scal),
              (cs ("hash"), hash), (cs ("sstart"), sv)].map (fun p => (p.1, Json.str p.2)))) ++ (']' :: post))) := by
      rw [hmk]
      simp [List.append_assoc]
    rw [hnotes, from_notes_delimited pre _ post hpre
      (jsonDumps_obj_strings_not_mem_rbracket _ (by
        intro p hp
        simp only [List.mem_cons, List.not_mem_nil, or_false] at hp
        rcases hp with rfl | rfl | rfl | rfl | rfl
        · exact ⟨by show ']' ∉ cs ("tid"); decide, htid⟩
        · exact ⟨by show ']' ∉ cs ("src"); decide, hsrc⟩
        · exact ⟨by show ']' ∉ cs ("scal"); decide, hscal⟩
        · exact ⟨by show ']' ∉ cs ("hash"); decide, hhash⟩
        · exact ⟨by show ']' ∉ cs ("sstart"); decide, hsv2⟩))]
    rw [jsonLoads_dumps_obj _ (by simp)]
    rfl

/-- C5 amended, witnessed at a concrete input: user text on both sides (the
trailing text even containing a stray `]`), a five-field record with an
occurrence start. -/
theorem c5_amended_witness :
    PlaceholderInfo.from_notes (some (cs ("shopping list ") ++ PlaceholderInfo.to_notes_marker
      { tracking_id := Json.str (cs ("t5")), source_event_id := Json.str (cs ("ev5")),
        source_calendar_id := Json.str (cs ("calA")), source_hash := Json.str (cs ("00ff")),
        source_start := ((some (cs ("2024-01-10T09:00:00"))).map Json.str).getD Json.null } ++
      cs (" [x] done"))) =
      Except.ok (some
        { tracking_id := Json.str (cs ("t5")), source_event_id := Json.str (cs ("ev5")),
          source_calendar_id := Json.str (cs ("calA")), source_hash := Json.str (cs ("00ff")),
          source_start := ((some (cs ("2024-01-10T09:00:00"))).map Json.str).getD Json.null }) :=
  c5_roundtrip_amended (cs ("t5")) (cs ("ev5")) (cs ("calA")) (cs ("00ff"))
    (some (cs ("2024-01-10T09:00:00"))) (cs ("shopping list ")) (cs (" [x] done"))
    (by decide) (by decide) (by decide) (by decide)
    (by
      intro s hs
      rw [Option.mem_def, Option.some_inj] at hs
      subst hs
      exact ⟨by decide, by decide⟩)
    (by decide)
